import Mathlib

/-!
# Verification of the GTFS schema-driven transform-and-reconciliation pipeline

Shallow embedding of the cleaning/validation pipeline (`schemas/common/schema_utils.py`),
the snapshot deduplication engine (`big_query/methods/streaming_method_bq_snapshot.py`),
the staged-merge upsert (`big_query/batch_upsert.py`) and the append/streaming write
strategies (`big_query/batch_insert.py`, `big_query/methods/streaming_method_v1.py`),
together with theorems settling the spec's testable properties.

Pandas cell values are modelled by an explicit `Val` type (with the four distinct
null flavours `None` / `nan` / `NaT` / `pd.NA`, whose `str()` images differ), dataframes
by an ordered column list plus row-major cell lists, and `hashlib.md5` by a full
executable MD5 implementation so that `record_id` / `entity_id` values are computed
exactly as the source computes them.
-/

namespace GtfsPipeline

/-- The four Python/pandas null flavours.  They are all `pd.isna`-null, but their
`str()` images (used by `generate_record_id`'s `astype(str)`) differ. -/
inductive NullKind where
  | vNone   -- Python `None`
  | vNan    -- float `nan`
  | vNaT    -- pandas `NaT`
  | vNA     -- pandas `pd.NA`
  deriving DecidableEq, Repr

/-- A pandas cell value.  Timestamps are UTC epoch seconds as exact rationals
(nanosecond precision is representable); floats are exact rationals (the inputs
manipulated here are decimal literals, exactly representable). -/
inductive Val where
  | null (k : NullKind)
  | str (s : String)
  | int (n : Int)
  | float (q : Rat)
  | bool (b : Bool)
  | ts (q : Rat)
  deriving DecidableEq, Repr

/-- `pd.isna`. -/
def Val.isNull : Val → Bool
  | .null _ => true
  | _ => false

/-! ## MD5 (`hashlib.md5(x.encode()).hexdigest()`)

Full MD5 over the UTF-8 bytes of a string (the strings hashed by the pipeline are
ASCII).  Words are `Nat` reduced mod `2 ^ 32`. -/

/-- The 64 MD5 round constants `floor(abs(sin(i+1)) * 2^32)`. -/
def md5K : List Nat :=
  [3614090360, 3905402710, 606105819, 3250441966, 4118548399, 1200080426, 2821735955, 4249261313,
   1770035416, 2336552879, 4294925233, 2304563134, 1804603682, 4254626195, 2792965006, 1236535329,
   4129170786, 3225465664, 643717713, 3921069994, 3593408605, 38016083, 3634488961, 3889429448,
   568446438, 3275163606, 4107603335, 1163531501, 2850285829, 4243563512, 1735328473, 2368359562,
   4294588738, 2272392833, 1839030562, 4259657740, 2763975236, 1272893353, 4139469664, 3200236656,
   681279174, 3936430074, 3572445317, 76029189, 3654602809, 3873151461, 530742520, 3299628645,
   4096336452, 1126891415, 2878612391, 4237533241, 1700485571, 2399980690, 4293915773, 2240044497,
   1873313359, 4264355552, 2734768916, 1309151649, 4149444226, 3174756917, 718787259, 3951481745]

/-- The MD5 per-round left-rotation amounts. -/
def md5S : List Nat :=
  [7, 12, 17, 22, 7, 12, 17, 22, 7, 12, 17, 22, 7, 12, 17, 22,
   5, 9, 14, 20, 5, 9, 14, 20, 5, 9, 14, 20, 5, 9, 14, 20,
   4, 11, 16, 23, 4, 11, 16, 23, 4, 11, 16, 23, 4, 11, 16, 23,
   6, 10, 15, 21, 6, 10, 15, 21, 6, 10, 15, 21, 6, 10, 15, 21]

def w32 (x : Nat) : Nat := x % 4294967296

/-- 32-bit left rotation. -/
def rotl32 (x s : Nat) : Nat :=
  w32 (x <<< s) ||| (x >>> (32 - s))

/-- 32-bit complement. -/
def not32 (x : Nat) : Nat := 4294967295 - x

/-- Little-endian 32-bit word from four bytes. -/
def wordLE (b0 b1 b2 b3 : Nat) : Nat := b0 + 256 * (b1 + 256 * (b2 + 256 * b3))

/-- A 64-byte block as sixteen little-endian words. -/
def blockWords : List Nat → List Nat
  | b0 :: b1 :: b2 :: b3 :: rest => wordLE b0 b1 b2 b3 :: blockWords rest
  | _ => []

/-- One MD5 round step. -/
def md5Round (m : List Nat) (st : Nat × Nat × Nat × Nat) (i : Nat) : Nat × Nat × Nat × Nat :=
  let (a, b, c, d) := st
  let (f, g) :=
    if i < 16 then ((b &&& c) ||| (not32 b &&& d), i)
    else if i < 32 then ((d &&& b) ||| (not32 d &&& c), (5 * i + 1) % 16)
    else if i < 48 then ((b ^^^ c) ^^^ d, (3 * i + 5) % 16)
    else (c ^^^ (b ||| not32 d), (7 * i) % 16)
  let f := w32 (f + a + md5K.getD i 0 + m.getD g 0)
  (d, w32 (b + rotl32 f (md5S.getD i 0)), b, c)

/-- Process one 64-byte block. -/
def md5Block (st : Nat × Nat × Nat × Nat) (blk : List Nat) : Nat × Nat × Nat × Nat :=
  let m := blockWords blk
  let (a, b, c, d) := (List.range 64).foldl (md5Round m) st
  let (a0, b0, c0, d0) := st
  (w32 (a0 + a), w32 (b0 + b), w32 (c0 + c), w32 (d0 + d))

/-- Split a byte list into 64-byte chunks (structural recursion on a fuel
bound so the kernel can evaluate it; the fuel `bs.length` always suffices). -/
def chunk64Go : Nat → List Nat → List (List Nat)
  | 0, _ => []
  | _, [] => []
  | fuel + 1, b :: bs => (b :: bs).take 64 :: chunk64Go fuel ((b :: bs).drop 64)

def chunk64 (bs : List Nat) : List (List Nat) := chunk64Go bs.length bs

/-- 64-bit little-endian encoding of a number (as eight bytes). -/
def le64 (n : Nat) : List Nat :=
  [n % 256, n / 256 % 256, n / 256 ^ 2 % 256, n / 256 ^ 3 % 256,
   n / 256 ^ 4 % 256, n / 256 ^ 5 % 256, n / 256 ^ 6 % 256, n / 256 ^ 7 % 256]

/-- MD5 padding: `0x80`, zeros to 56 mod 64, then the bit length, little-endian. -/
def md5Pad (msg : List Nat) : List Nat :=
  msg ++ 128 :: List.replicate ((55 + 64 - msg.length % 64) % 64) 0 ++
    le64 (8 * msg.length % 18446744073709551616)

/-- Hex digit characters. -/
def hexChar (n : Nat) : Char :=
  if n < 10 then Char.ofNat (48 + n) else Char.ofNat (87 + n)

/-- Lowercase hex of one byte. -/
def byteHex (b : Nat) : String :=
  String.mk [hexChar (b / 16), hexChar (b % 16)]

/-- Little-endian byte decomposition of a 32-bit word. -/
def wordBytesLE (x : Nat) : List Nat :=
  [x % 256, x / 256 % 256, x / 65536 % 256, x / 16777216 % 256]

/-- MD5 digest of a byte list, as a lowercase 32-character hex string. -/
def md5Bytes (msg : List Nat) : String :=
  let st := (chunk64 (md5Pad msg)).foldl md5Block (1732584193, 4023233417, 2562383102, 271733878)
  let (a, b, c, d) := st
  String.join (((wordBytesLE a ++ wordBytesLE b ++ wordBytesLE c ++ wordBytesLE d).map byteHex))

/-- UTF-8 bytes of a string (the hashed strings are ASCII, for which UTF-8 is
the code point itself). -/
def strBytes (s : String) : List Nat := s.data.map Char.toNat

/-- `hashlib.md5(s.encode()).hexdigest()`. -/
def md5Hex (s : String) : String := md5Bytes (strBytes s)

/-! ## Python `str()` of cell values

`generate_record_id` hashes `df[cols].astype(str).sum(axis=1)` and
`generate_entity_id` hashes `"|".join(str(...))`; both apply Python `str()`
elementwise, so its image is modelled per `Val` constructor. -/

/-- Floor of a rational to an integer (`q.num / q.den` is floor division on a
normalized rational; equal to `Int.floor`, but kernel-reducible). -/
def ratFloor (q : Rat) : Int := q.num / q.den

theorem ratFloor_eq (q : Rat) : ratFloor q = ⌊q⌋ := by
  rw [Rat.floor_def]
  rfl

/-! Kernel-reducible rational arithmetic.  The field operations on `Rat` are
`@[irreducible]`, so the embedding computes with `Rat.divInt` forms instead;
each is proved equal to the corresponding field operation. -/

/-- Kernel-reducible rational multiplication. -/
def rMul (a b : Rat) : Rat := Rat.divInt (a.num * b.num) (a.den * b.den)

/-- Kernel-reducible rational subtraction. -/
def rSub (a b : Rat) : Rat := Rat.divInt (a.num * b.den - b.num * a.den) (a.den * b.den)

/-- Kernel-reducible rational division. -/
def rDiv (a b : Rat) : Rat := Rat.divInt (a.num * b.den) (a.den * b.num)

theorem rMul_eq (a b : Rat) : rMul a b = a * b := by
  rw [rMul, Rat.divInt_eq_div]
  push_cast
  conv_rhs => rw [← Rat.num_div_den a, ← Rat.num_div_den b]
  rw [div_mul_div_comm]

theorem rSub_eq (a b : Rat) : rSub a b = a - b := by
  rw [rSub, Rat.divInt_eq_div]
  push_cast
  conv_rhs => rw [← Rat.num_div_den a, ← Rat.num_div_den b]
  rw [div_sub_div _ _ (by exact_mod_cast a.den_nz) (by exact_mod_cast b.den_nz)]
  ring

theorem rDiv_eq (a b : Rat) : rDiv a b = a / b := by
  have h1 : ((a.den : Nat) : Rat) ≠ 0 := Nat.cast_ne_zero.mpr a.den_nz
  have h2 : ((b.den : Nat) : Rat) ≠ 0 := Nat.cast_ne_zero.mpr b.den_nz
  by_cases hb : b = 0
  · subst hb
    rw [rDiv, Rat.divInt_eq_div, div_zero]
    norm_num
  · have h3 : ((b.num : Int) : Rat) ≠ 0 := by
      exact_mod_cast Rat.num_ne_zero.mpr hb
    have ha : ((a.num : Int) : Rat) = a * a.den :=
      (div_eq_iff h1).mp (Rat.num_div_den a)
    have hbn : ((b.num : Int) : Rat) = b * b.den :=
      (div_eq_iff h2).mp (Rat.num_div_den b)
    rw [rDiv, Rat.divInt_eq_div]
    push_cast
    rw [div_eq_div_iff (mul_ne_zero h1 h3) hb, ha, hbn]
    ring

/-- Zero-pad a natural number to `k` digits. -/
def padNat (k n : Nat) : String :=
  let s := toString n
  String.mk (List.replicate (k - s.length) '0') ++ s

/-- Civil date from days since 1970-01-01 (Gregorian, proleptic). -/
def civilFromDays (z : Int) : Int × Int × Int :=
  let z := z + 719468
  let era := Int.ediv z 146097
  let doe := z - era * 146097
  let yoe := Int.ediv (doe - Int.ediv doe 1460 + Int.ediv doe 36524 - Int.ediv doe 146096) 365
  let y := yoe + era * 400
  let doy := doe - (365 * yoe + Int.ediv yoe 4 - Int.ediv yoe 100)
  let mp := Int.ediv (5 * doy + 2) 153
  let d := doy - Int.ediv (153 * mp + 2) 5 + 1
  let m := mp + (if mp < 10 then 3 else -9)
  (y + (if m ≤ 2 then 1 else 0), m, d)

/-- `str()` of a tz-aware UTC timestamp, e.g. `1970-01-01 00:10:00+00:00`
(with a 6-digit microsecond part when the value is not a whole second). -/
def tsToStr (q : Rat) : String :=
  let total : Int := ratFloor q
  let days := Int.ediv total 86400
  let secs := (total - 86400 * days).toNat
  let (y, m, d) := civilFromDays days
  let frac := rSub q ((total : Int) : Rat)
  let base := padNat 4 y.toNat ++ "-" ++ padNat 2 m.toNat ++ "-" ++ padNat 2 d.toNat ++ " " ++
    padNat 2 (secs / 3600) ++ ":" ++ padNat 2 (secs / 60 % 60) ++ ":" ++ padNat 2 (secs % 60)
  let fracPart := if frac = 0 then "" else "." ++ padNat 6 (ratFloor (rMul frac 1000000)).toNat
  base ++ fracPart ++ "+00:00"

/-- `repr()`/`str()` of a Python float whose value is an exact decimal: minimal
decimal digits, at least one (`1.0`, `3.5`, `0.1`).  Rationals without a
terminating decimal expansion do not arise from the inputs modelled here. -/
def ratFloatStr (q : Rat) : String :=
  match (List.range 30).find? (fun k => 10 ^ k % q.den == 0) with
  | Option.some k =>
    let k := max k 1
    let scaled := q.num.natAbs * 10 ^ k / q.den
    (if q.num < 0 then "-" else "") ++ toString (scaled / 10 ^ k) ++ "." ++ padNat k (scaled % 10 ^ k)
  | Option.none => toString q

/-- Python `str()` of a cell value (`astype(str)` image). -/
def valToStr : Val → String
  | .null .vNone => "None"
  | .null .vNan => "nan"
  | .null .vNaT => "NaT"
  | .null .vNA => "<NA>"
  | .str s => s
  | .int n => toString n
  | .float q => ratFloatStr q
  | .bool b => if b then "True" else "False"
  | .ts q => tsToStr q

/-! ## Numeric coercions (`pd.to_numeric`, `pd.to_datetime`) -/

/-- Kernel-reducible `String.endsWith` (character-list comparison). -/
def strEndsWith (s suf : String) : Bool :=
  (decide (suf.data.length ≤ s.data.length)) &&
    s.data.drop (s.data.length - suf.data.length) == suf.data

/-- Kernel-reducible `String.dropRight`. -/
def strDropRight (s : String) (n : Nat) : String :=
  String.mk (s.data.take (s.data.length - n))

/-- Decimal digits to a natural number. -/
def digitsToNat (cs : List Char) : Nat :=
  cs.foldl (fun a c => 10 * a + (c.toNat - 48)) 0

/-- Parse a (possibly signed) integer literal.  `pd.to_numeric` also parses
decimal-point literals; the feeds modelled here carry numbers as native
numerics or integer strings, so only integer literals are parsed and any other
string coerces to null. -/
def parseIntStr (s : String) : Option Int :=
  match s.data with
  | '-' :: rest =>
    if rest.length > 0 && rest.all Char.isDigit then Option.some (-(digitsToNat rest : Int))
    else Option.none
  | cs =>
    if cs.length > 0 && cs.all Char.isDigit then Option.some ((digitsToNat cs : Nat) : Int)
    else Option.none

/-- `pd.to_numeric(v, errors='coerce')` elementwise: numerics pass through,
booleans become 0/1, datetimes become their int64 nanosecond value, null stays
null (`NaN`), and unparseable values coerce to `NaN`. -/
def toNumeric : Val → Val
  | .null _ => .null .vNan
  | .int n => .int n
  | .float q => .float q
  | .bool b => .int (if b then 1 else 0)
  | .ts q => .int (ratFloor (rMul q 1000000000))
  | .str s =>
    match parseIntStr s with
    | Option.some n => .int n
    | Option.none => .null .vNan

/-- Largest pandas timestamp in whole seconds (int64 nanoseconds bound). -/
def tsMaxSeconds : Int := 9223372036

/-- `pd.to_datetime(v, unit='s', utc=True, errors='coerce')` elementwise on the
output of `to_numeric`: numeric seconds-since-epoch, out-of-bounds and
non-numeric values coerce to `NaT`. -/
def toDatetimeUnitS : Val → Val
  | .int n => if n.natAbs ≤ tsMaxSeconds.natAbs then .ts (n : Rat) else .null .vNaT
  | .float q => if |q| ≤ (tsMaxSeconds : Rat) then .ts q else .null .vNaT
  | _ => .null .vNaT

/-! ## DataFrames

Row-major: an ordered column-name list and one value list per row, aligned
positionally.  `wf` states the alignment. -/

structure DF where
  cols : List String
  rows : List (List Val)
  deriving DecidableEq, Repr

deriving instance DecidableEq for Except

/-- Every row has exactly one cell per column. -/
def DF.wf (df : DF) : Prop := ∀ r ∈ df.rows, r.length = df.cols.length

/-- The cell of row `r` at column `c` (given the column list `cols`). -/
def cellAt (cols : List String) (r : List Val) (c : String) : Val :=
  ((cols.findIdx? (fun c2 => c2 = c)).map (fun i => r.getD i (.null .vNan))).getD (.null .vNan)

/-- `df[c]`: the column as a list of values. -/
def DF.getCol (df : DF) (c : String) : List Val :=
  df.rows.map (fun r => cellAt df.cols r c)

/-- `df[c] = vs`: overwrite column `c` in place if present, else append it. -/
def DF.setCol (df : DF) (c : String) (vs : List Val) : DF :=
  match df.cols.findIdx? (fun c2 => c2 = c) with
  | Option.some i => { cols := df.cols, rows := List.zipWith (fun r v => r.set i v) df.rows vs }
  | Option.none => { cols := df.cols ++ [c], rows := List.zipWith (fun r v => r ++ [v]) df.rows vs }

/-- `df[cs]`: project onto the listed columns, in that order. -/
def DF.selectCols (df : DF) (cs : List String) : DF :=
  { cols := cs, rows := df.rows.map (fun r => cs.map (cellAt df.cols r)) }

/-- `df[c] = df[c].map f` for a present column. -/
def DF.mapCol (df : DF) (c : String) (f : Val → Val) : DF :=
  df.setCol c ((df.getCol c).map f)

/-! ## Schema contracts

A pandera `DataFrameModel` class together with the module-level attributes that
`_get_schema_attribute` reads (`COLS_MAPPING`, `COLS_VOLATILE`, `COLS_ENTITY`,
`COLS_FILTERNA`, `COLS_TIMESTAMP`, `CATEGORICAL_MAPPING`); a missing attribute
is the empty list, matching the `default=[]` / `default={}` calls. -/

/-- Pandera field dtypes used by the schemas. -/
inductive DType where
  | dstr | dint | dfloat | dbool | dts
  deriving DecidableEq, Repr

/-- One pandera field: name, dtype, nullability and optional decimal precision
metadata. -/
structure SField where
  name : String
  dtype : DType
  nullable : Bool
  precision : Option Nat
  deriving DecidableEq, Repr

/-- A schema contract (class fields in pandera collection order, base classes
first, plus the module attributes). -/
structure Schema where
  columns : List SField
  colsMapping : List (String × List String)
  colsVolatile : List String
  colsEntity : List String
  colsFilterNa : List String
  colsTimestamp : List String
  categoricalMapping : List (String × List (Int × String))
  deriving Repr

/-- Names of the schema's fields, in schema order. -/
def Schema.colNames (sc : Schema) : List String := sc.columns.map (fun f => f.name)

/-! ## Cleaning / validation pipeline (`schemas/common/schema_utils.py`)

Each stage is a faithful translation of the corresponding function.  Python
`set` iteration order (used once, in `apply_schema_field_mappings`'s
`list(target_columns)`) is implementation-defined; it is modelled as insertion
order, and no theorem below depends on that order. -/

/-- `apply_schema_field_mappings`: for each target field, copy the first
`COLS_MAPPING` source path present in the input; if any field was mapped, keep
only the mapped target columns. -/
def apply_schema_field_mappings (df : DF) (sc : Schema) : DF :=
  if df.rows.isEmpty then df
  else if sc.colsMapping.isEmpty then df
  else
    let step := fun (acc : DF × List String) (f : SField) =>
      match sc.colsMapping.lookup f.name with
      | Option.none => acc
      | Option.some [] => acc
      | Option.some paths =>
        match paths.find? (fun p => df.cols.contains p) with
        | Option.some src => (acc.1.setCol f.name (df.getCol src), acc.2 ++ [f.name])
        | Option.none => acc
    let res := sc.columns.foldl step (df, [])
    if res.2.isEmpty then res.1 else res.1.selectCols res.2

/-- `convert_epoch_timestamps_to_utc`: every column ending in `_s` gets a
sibling column (suffix stripped) holding its values coerced to numeric and
interpreted as seconds since the epoch, in UTC. -/
def convert_epoch_timestamps_to_utc (df : DF) : DF :=
  if df.rows.isEmpty then df
  else
    let epochCols := df.cols.filter (fun c => strEndsWith c "_s")
    epochCols.foldl
      (fun res c => res.setCol (strDropRight c 2) ((df.getCol c).map (fun v => toDatetimeUnitS (toNumeric v))))
      df

/-- numpy/pandas `.round(p)`: round half to even at `p` decimal places. -/
def roundHalfEven (p : Nat) (q : Rat) : Rat :=
  let m := rMul q (((10 ^ p : Nat) : Int) : Rat)
  let fl : Int := ratFloor m
  let r : Int :=
    if rSub m ((fl : Int) : Rat) < mkRat 1 2 then fl
    else if rSub m ((fl : Int) : Rat) > mkRat 1 2 then fl + 1
    else if fl % 2 = 0 then fl else fl + 1
  rDiv ((r : Int) : Rat) (((10 ^ p : Nat) : Int) : Rat)

/-- `.round(p)` elementwise after `pd.to_numeric(..., errors='coerce')`. -/
def roundVal (p : Nat) (v : Val) : Val :=
  match toNumeric v with
  | .int n => .int n
  | .float q => .float (roundHalfEven p q)
  | _ => .null .vNan

/-- `apply_schema_precision_rounding`: float fields carrying precision metadata
are numerically coerced and rounded. -/
def apply_schema_precision_rounding (df : DF) (sc : Schema) : DF :=
  if df.rows.isEmpty then df
  else
    sc.columns.foldl
      (fun res f =>
        if (df.cols.contains f.name) && (f.dtype == DType.dfloat) then
          match f.precision with
          | Option.some p => res.setCol f.name ((res.getCol f.name).map (roundVal p))
          | Option.none => res
        else res)
      df

/-- Python `dict.get` on an int-keyed code map, as `Series.map` applies it:
ints (and integral floats / bools, which hash-equal ints in Python) hit the
map, everything else — including already-standardized text labels — misses and
becomes null. -/
def catLookup (m : List (Int × String)) (v : Val) : Val :=
  let hit := fun (n : Int) =>
    match m.lookup n with
    | Option.some lbl => Val.str lbl
    | Option.none => Val.null .vNan
  match v with
  | .int n => hit n
  | .float q => if q.den = 1 then hit q.num else .null .vNan
  | .bool b => hit (if b then 1 else 0)
  | _ => .null .vNan

/-- `apply_categorical_standardization`: map each categorical column through
its `CATEGORICAL_MAPPING` code map. -/
def apply_categorical_standardization (df : DF) (sc : Schema) : DF :=
  if df.rows.isEmpty then df
  else if sc.categoricalMapping.isEmpty then df
  else
    sc.categoricalMapping.foldl
      (fun res cm =>
        if df.cols.contains cm.1 then res.setCol cm.1 ((df.getCol cm.1).map (catLookup cm.2))
        else res)
      df

/-- One value through `pd.to_numeric(..., errors='coerce')`, the
fractional-part null-out (`ser.where(ser.isna() | ((ser % 1) == 0))`) and
`astype('Int64')`. -/
def coerceIntVal (v : Val) : Val :=
  match toNumeric v with
  | .int n => .int n
  | .float q => if q.den = 1 then .int q.num else .null .vNA
  | _ => .null .vNA

/-- One step of the integer-coercion loop: `if c in result_df.columns`,
coerce that column elementwise. -/
def coerceStep (res : DF) (c : String) : DF :=
  if res.cols.contains c then res.setCol c ((res.getCol c).map coerceIntVal) else res

/-- `coerce_integer_fields_to_nullable_int`: integer-typed schema fields
present in the frame are coerced to nullable Int64, nulling any value with a
non-zero fractional part. -/
def coerce_integer_fields_to_nullable_int (df : DF) (sc : Schema) : DF :=
  if df.rows.isEmpty then df
  else
    let intCols := (sc.columns.filter (fun f => f.dtype == DType.dint)).map (fun f => f.name)
    intCols.foldl coerceStep df

/-- `generate_record_id`: concatenate the `str()` images of all non-volatile
cells of a row, in dataframe column order. -/
def recordHashInput (cols : List String) (colsForHash : List String) (r : List Val) : String :=
  String.join (colsForHash.map (fun c => valToStr (cellAt cols r c)))

/-- `generate_record_id`: `record_id` is the 16-hex-character truncated MD5 of
the row's non-volatile content; skipped entirely when `COLS_VOLATILE` is empty
or when no columns remain after exclusion. -/
def generate_record_id (df : DF) (sc : Schema) : DF :=
  if df.rows.isEmpty then df
  else if sc.colsVolatile.isEmpty then df
  else
    let colsForHash := df.cols.filter (fun c => !sc.colsVolatile.contains c)
    if colsForHash.isEmpty then df
    else
      df.setCol "record_id"
        (df.rows.map (fun r => Val.str ((md5Hex (recordHashInput df.cols colsForHash r)).take 16)))

/-- `generate_entity_id`: `entity_id` is the 16-hex-character truncated MD5 of
the `|`-joined `str()` images of the `COLS_ENTITY` columns present; skipped
when none are declared or present. -/
def generate_entity_id (df : DF) (sc : Schema) : DF :=
  if df.rows.isEmpty then df
  else if sc.colsEntity.isEmpty then df
  else
    let available := sc.colsEntity.filter (fun c => df.cols.contains c)
    if available.isEmpty then df
    else
      df.setCol "entity_id"
        (df.rows.map (fun r =>
          Val.str ((md5Hex (String.intercalate "|" (available.map (fun c => valToStr (cellAt df.cols r c))))).take 16)))

/-- `drop_duplicates(subset=['record_id'], keep='first')` on the value at
index `i` of each row. -/
def dedupFirstByIdx (i : Nat) : List (List Val) → List Val → List (List Val)
  | [], _ => []
  | r :: rs, seen =>
    let v := r.getD i (.null .vNan)
    if seen.contains v then dedupFirstByIdx i rs seen
    else r :: dedupFirstByIdx i rs (v :: seen)

/-- `deduplicate_by_record_id`: drop rows whose `record_id` repeats, keeping
the first occurrence; no-op when the column is absent. -/
def deduplicate_by_record_id (df : DF) : DF :=
  if df.rows.isEmpty || !df.cols.contains "record_id" then df
  else
    match df.cols.findIdx? (fun c2 => c2 = "record_id") with
    | Option.some i => { cols := df.cols, rows := dedupFirstByIdx i df.rows [] }
    | Option.none => df

/-- `filter_null_rows_by_columns`: drop rows with a null in any present
`COLS_FILTERNA` column; skipped when none are declared or present. -/
def filter_null_rows_by_columns (df : DF) (sc : Schema) : DF :=
  if df.rows.isEmpty then df
  else if sc.colsFilterNa.isEmpty then df
  else
    let conds := sc.colsFilterNa.filter (fun c => df.cols.contains c)
    if conds.isEmpty then df
    else { cols := df.cols, rows := df.rows.filter (fun r => conds.all (fun c => !(cellAt df.cols r c).isNull)) }

/-- `_get_default_value_for_field`: the type-appropriate null. -/
def defaultForDType : DType → Val
  | .dint => .null .vNA
  | .dfloat => .null .vNan
  | .dbool => .null .vNA
  | .dts => .null .vNaT
  | .dstr => .null .vNone

/-- One step of `add_missing_schema_fields`: the presence check is against
the function's input frame (`if field_name not in df.columns`), the addition
happens on the accumulated result. -/
def addMissingStep (d res : DF) (f : SField) : DF :=
  if d.cols.contains f.name then res
  else res.setCol f.name (List.replicate res.rows.length (defaultForDType f.dtype))

/-- `add_missing_schema_fields`: add each schema field absent from the frame,
filled with its type-appropriate null. -/
def add_missing_schema_fields (df : DF) (sc : Schema) : DF :=
  if df.rows.isEmpty then df
  else sc.columns.foldl (addMissingStep df) df

/-- `drop_extra_columns_not_in_schema`: drop frame columns not named by the
schema. -/
def drop_extra_columns_not_in_schema (df : DF) (sc : Schema) : DF :=
  if df.rows.isEmpty then df
  else
    let extra := df.cols.filter (fun c => !sc.colNames.contains c)
    if extra.isEmpty then df
    else df.selectCols (df.cols.filter (fun c => sc.colNames.contains c))

/-- `order_columns_by_schema`: reorder to schema field order (columns present
in both). -/
def order_columns_by_schema (df : DF) (sc : Schema) : DF :=
  if df.rows.isEmpty then df
  else
    let ordered := sc.colNames.filter (fun c => df.cols.contains c)
    if ordered.isEmpty then df else df.selectCols ordered

/-- Pandera `schema.validate` (with `strict=False`, `coerce=True`): the single
failure point of the pipeline.  Modelled checks: every schema column must be
present, and non-nullable columns must contain no nulls — the checks the
schemas here declare.  On success the frame passes through. -/
def validate (df : DF) (sc : Schema) : Except String DF :=
  match sc.columns.find? (fun f => !df.cols.contains f.name) with
  | Option.some f => Except.error ("column not in dataframe: " ++ f.name)
  | Option.none =>
    match sc.columns.find? (fun f => !f.nullable && (df.getCol f.name).any Val.isNull) with
    | Option.some f => Except.error ("non-nullable series contains null values: " ++ f.name)
    | Option.none => Except.ok df

/-- `pd.to_datetime(v, utc=True, errors='coerce').dt.floor('s')` elementwise:
datetimes floor to whole seconds, raw ints are int64 nanoseconds, nulls and
unparseable values are `NaT` (date-string parsing is not needed by the
modelled flows). -/
def toDatetimeFloorS : Val → Val
  | .ts q => .ts ((ratFloor q : Int) : Rat)
  | .int n => .ts ((ratFloor (rDiv ((n : Int) : Rat) 1000000000) : Int) : Rat)
  | .float q => .ts ((ratFloor (rDiv q 1000000000) : Int) : Rat)
  | _ => .null .vNaT

/-- `coerce_timestamp_columns_to_utc`: `COLS_TIMESTAMP` columns are coerced to
UTC datetimes floored to whole seconds. -/
def coerce_timestamp_columns_to_utc (df : DF) (sc : Schema) : DF :=
  if df.rows.isEmpty then df
  else if sc.colsTimestamp.isEmpty then df
  else
    sc.colsTimestamp.foldl
      (fun res c =>
        if df.cols.contains c then res.setCol c ((df.getCol c).map toDatetimeFloorS) else res)
      df

/-- `clean_and_validate_dataframe`: the fixed stage order, with pandera
validation as the single failure point. -/
def clean_and_validate_dataframe (df : DF) (sc : Schema) : Except String DF :=
  if df.rows.isEmpty then Except.ok df
  else
    let df1 := apply_schema_field_mappings df sc
    let df2 := convert_epoch_timestamps_to_utc df1
    let df3 := apply_schema_precision_rounding df2 sc
    let df4 := apply_categorical_standardization df3 sc
    let df5 := coerce_integer_fields_to_nullable_int df4 sc
    let df6 := generate_record_id df5 sc
    let df7 := generate_entity_id df6 sc
    let df8 := deduplicate_by_record_id df7
    let df9 := filter_null_rows_by_columns df8 sc
    let df10 := add_missing_schema_fields df9 sc
    let df11 := drop_extra_columns_not_in_schema df10 sc
    let df12 := order_columns_by_schema df11 sc
    match validate df12 sc with
    | Except.error e => Except.error e
    | Except.ok v => Except.ok (coerce_timestamp_columns_to_utc v sc)

/-! ## Concrete schema contracts

Transcribed from `schemas/vehicle_positions.py` and
`schemas/schedule/stop_times.py`.  Pandera collects fields over the MRO with
base classes first, so the `TimestampMixin` columns (`created_at`,
`updated_at`) come first; no theorem below depends on that order. -/

/-- The `VehiclePositions` contract (`schemas/vehicle_positions.py`). -/
def vehiclePositions : Schema where
  columns :=
    [⟨"created_at", .dts, true, Option.none⟩,
     ⟨"updated_at", .dts, true, Option.none⟩,
     ⟨"record_id", .dstr, false, Option.none⟩,
     ⟨"entity_id", .dstr, false, Option.none⟩,
     ⟨"timestamp", .dts, false, Option.none⟩,
     ⟨"timestamp_s", .dint, true, Option.none⟩,
     ⟨"vehicle_id", .dstr, true, Option.none⟩,
     ⟨"vehicle_label", .dstr, true, Option.none⟩,
     ⟨"vehicle_license_plate", .dstr, true, Option.none⟩,
     ⟨"latitude", .dfloat, true, Option.some 6⟩,
     ⟨"longitude", .dfloat, true, Option.some 6⟩,
     ⟨"bearing", .dfloat, true, Option.some 1⟩,
     ⟨"speed", .dfloat, true, Option.some 1⟩,
     ⟨"odometer", .dfloat, true, Option.some 1⟩,
     ⟨"occupancy_status", .dstr, true, Option.none⟩,
     ⟨"route_id", .dstr, true, Option.none⟩,
     ⟨"trip_id", .dstr, true, Option.none⟩,
     ⟨"direction_id", .dint, true, Option.none⟩,
     ⟨"start_date", .dstr, true, Option.none⟩,
     ⟨"start_time", .dstr, true, Option.none⟩,
     ⟨"schedule_relationship", .dstr, true, Option.none⟩]
  colsMapping :=
    [("vehicle_id", ["vehicle.vehicle.id"]),
     ("vehicle_label", ["vehicle.vehicle.label"]),
     ("vehicle_license_plate", ["vehicle.vehicle.license_plate"]),
     ("latitude", ["vehicle.position.latitude"]),
     ("longitude", ["vehicle.position.longitude"]),
     ("bearing", ["vehicle.position.bearing"]),
     ("speed", ["vehicle.position.speed"]),
     ("odometer", ["vehicle.position.odometer"]),
     ("occupancy_status", ["vehicle.occupancy_status", "vehicle.occupancyStatus"]),
     ("route_id", ["vehicle.trip.route_id", "vehicle.trip.routeId"]),
     ("trip_id", ["vehicle.trip.trip_id", "vehicle.trip.tripId"]),
     ("direction_id", ["vehicle.trip.directionId", "vehicle.trip.direction_id"]),
     ("start_date", ["vehicle.trip.start_date", "vehicle.trip.startDate"]),
     ("start_time", ["vehicle.trip.start_time", "vehicle.trip.startTime"]),
     ("schedule_relationship", ["vehicle.trip.schedule_relationship", "vehicle.trip.scheduleRelationship"]),
     ("timestamp", ["vehicle.timestamp", "timestamp"]),
     ("timestamp_s", ["vehicle.timestamp", "timestamp"]),
     ("created_at", ["created_at"]),
     ("updated_at", ["updated_at"])]
  colsVolatile := ["record_id", "created_at", "updated_at"]
  colsEntity := ["vehicle_id"]
  colsFilterNa := ["vehicle_id"]
  colsTimestamp := ["timestamp", "created_at", "updated_at"]
  categoricalMapping :=
    [("occupancy_status",
      [(0, "EMPTY"), (1, "MANY_SEATS_AVAILABLE"), (2, "FEW_SEATS_AVAILABLE"),
       (3, "STANDING_ROOM_ONLY"), (4, "CRUSHED_STANDING_ROOM_ONLY"), (5, "FULL"),
       (6, "NOT_ACCEPTING_PASSENGERS"), (7, "NO_DATA_AVAILABLE"), (8, "NOT_BOARDABLE")]),
     ("schedule_relationship",
      [(0, "SCHEDULED"), (1, "ADDED"), (2, "UNSCHEDULED"), (3, "CANCELED"),
       (4, "REPLACEMENT"), (5, "DUPLICATED"), (6, "DELETED")])]

/-- The `StopTimes` contract (`schemas/schedule/stop_times.py`); its module
defines none of the optional attributes, so they all default to empty. -/
def stopTimes : Schema where
  columns :=
    [⟨"created_at", .dts, true, Option.none⟩,
     ⟨"updated_at", .dts, true, Option.none⟩,
     ⟨"trip_id", .dstr, false, Option.none⟩,
     ⟨"stop_id", .dstr, false, Option.none⟩,
     ⟨"stop_sequence", .dint, false, Option.none⟩,
     ⟨"arrival_time", .dstr, true, Option.none⟩,
     ⟨"departure_time", .dstr, true, Option.none⟩,
     ⟨"stop_headsign", .dstr, true, Option.none⟩,
     ⟨"pickup_type", .dint, true, Option.none⟩,
     ⟨"drop_off_type", .dint, true, Option.none⟩,
     ⟨"timepoint", .dint, true, Option.none⟩,
     ⟨"shape_dist_traveled", .dfloat, true, Option.none⟩,
     ⟨"feed_hash", .dstr, false, Option.none⟩]
  colsMapping := []
  colsVolatile := []
  colsEntity := []
  colsFilterNa := []
  colsTimestamp := []
  categoricalMapping := []

/-! ### Concrete frames used by the C2 idempotence analysis -/

/-- A realtime vehicle-positions payload row, already flattened: the alias
source columns plus warehouse timestamps. -/
def vpInput : DF :=
  { cols := ["vehicle.vehicle.id", "vehicle.timestamp", "created_at", "updated_at"],
    rows := [[Val.str "V1", Val.int 1700000000, Val.ts 1700000000, Val.ts 1700000000]] }

/-- A static-schedule `stop_times` row. -/
def stInput : DF :=
  { cols := ["trip_id", "stop_id", "stop_sequence", "feed_hash"],
    rows := [[Val.str "t1", Val.str "s1", Val.int 1, Val.str "h1"]] }

/-- The pipeline's output for `stInput` under the `StopTimes` contract. -/
def stOutput : DF :=
  { cols := ["created_at", "updated_at", "trip_id", "stop_id", "stop_sequence", "arrival_time",
             "departure_time", "stop_headsign", "pickup_type", "drop_off_type", "timepoint",
             "shape_dist_traveled", "feed_hash"],
    rows := [[Val.null NullKind.vNaT, Val.null NullKind.vNaT, Val.str "t1", Val.str "s1",
              Val.int 1, Val.null NullKind.vNone, Val.null NullKind.vNone,
              Val.null NullKind.vNone, Val.null NullKind.vNA, Val.null NullKind.vNA,
              Val.null NullKind.vNA, Val.null NullKind.vNan, Val.str "h1"]] }

/-! ## Snapshot deduplication engine
(`big_query/methods/streaming_method_bq_snapshot.py`)

Values at this boundary distinguish plain Python scalars from numpy/pandas
boxed scalars (which expose `.item()`), since `_normalize_key_value` exists
precisely to collapse that difference. -/

/-- A plain Python scalar. -/
inductive Prim where
  | pint (n : Int)
  | pstr (s : String)
  | pfloat (q : Rat)
  | pbool (b : Bool)
  deriving DecidableEq, Repr

/-- A cell value as seen by the snapshot module: null, a numpy/pandas boxed
scalar (has `.item()`), or a plain scalar. -/
inductive SVal where
  | na (k : NullKind)
  | box (p : Prim)
  | plain (p : Prim)
  deriving DecidableEq, Repr

/-- `_normalize_key_value`: nulls collapse to `None`, boxed scalars unwrap via
`.item()`, plain values pass through.  `Option.none` is Python `None`. -/
def normalize_key_value : SVal → Option Prim
  | .na _ => Option.none
  | .box p => Option.some p
  | .plain p => Option.some p

/-- A dataframe at the snapshot boundary. -/
structure SDF where
  cols : List String
  rows : List (List SVal)
  deriving DecidableEq, Repr

/-- Cell lookup (key columns are validated to exist before use). -/
def scellAt (cols : List String) (r : List SVal) (c : String) : SVal :=
  match cols.findIdx? (fun c2 => c2 = c) with
  | Option.some i => r.getD i (.na .vNan)
  | Option.none => .na .vNan

/-- A normalized key tuple: the row's projection onto the key columns, each
value through `_normalize_key_value`. -/
def keyOfRow (cols : List String) (keyCols : List String) (r : List SVal) : List (Option Prim) :=
  keyCols.map (fun c => normalize_key_value (scellAt cols r c))

/-- The row loop of `_drop_seen_rows`: the `seen` set starts as the snapshot
key set and each kept row's key is added to it. -/
def dropSeenGo (cols keyCols : List String) :
    List (List SVal) → List (List (Option Prim)) → List (List SVal) × Nat
  | [], _ => ([], 0)
  | r :: rs, seen =>
    let key := keyOfRow cols keyCols r
    if seen.contains key then
      let rest := dropSeenGo cols keyCols rs seen
      (rest.1, rest.2 + 1)
    else
      let rest := dropSeenGo cols keyCols rs (key :: seen)
      (r :: rest.1, rest.2)

/-- `_drop_seen_rows`: filter out rows whose normalized key tuple is already
in the (growing) seen set; returns the kept rows and the skipped count. -/
def drop_seen_rows (df : SDF) (existingKeys : List (List (Option Prim))) (keyCols : List String) :
    SDF × Nat :=
  if keyCols.isEmpty then (df, 0)
  else
    let res := dropSeenGo df.cols keyCols df.rows existingKeys
    ({ cols := df.cols, rows := res.1 }, res.2)

/-- The amended filter, written from the amended claim's words: a row is kept
iff its normalized key is neither in the snapshot set `S` nor equal to the key
of any earlier row of the batch. -/
def amendedKeep (cols keyCols : List String) (S : List (List (Option Prim))) :
    List (List SVal) → List (List (Option Prim)) → List (List SVal)
  | [], _ => []
  | r :: rs, prev =>
    let k := keyOfRow cols keyCols r
    if S.contains k || prev.contains k then amendedKeep cols keyCols S rs (k :: prev)
    else r :: amendedKeep cols keyCols S rs (k :: prev)

/-- `drop_duplicates()` on whole key tuples, keeping first occurrences. -/
def dedupKeys : List (List (Option Prim)) → List (List (Option Prim)) → List (List (Option Prim))
  | [], _ => []
  | k :: ks, seen =>
    if seen.contains k then dedupKeys ks seen
    else k :: dedupKeys ks (k :: seen)

/-- The key frame `_overwrite_snapshot` loads (before the `captured_at` column
is appended): the source rows' normalized key projection, deduplicated. -/
def snapshot_key_frame (src : SDF) (keyCols : List String) : List (List (Option Prim)) :=
  dedupKeys (src.rows.map (keyOfRow src.cols keyCols)) []

/-- `_overwrite_snapshot` replaces the whole snapshot (`WRITE_TRUNCATE`) with
the key frame, unless the key column list is empty, in which case it returns
without writing.  `Option.none` means the snapshot was left untouched. -/
def overwrite_effect (src : SDF) (keyCols : List String) : Option (List (List (Option Prim))) :=
  if keyCols.isEmpty then Option.none
  else Option.some (snapshot_key_frame src keyCols)

/-- The observable outcome of one snapshot-enabled `upload` run. -/
structure SnapUploadResult where
  rowsProcessed : Nat
  errorCount : Nat
  skippedDuplicates : Nat
  /-- `Option.some keys` iff the snapshot table was overwritten, with the keys
  it now holds (each row also gains a `captured_at` stamp). -/
  snapshotAfter : Option (List (List (Option Prim)))
  deriving DecidableEq, Repr

/-- `upload(df, ..., use_snapshot=True)`: the snapshot-enabled streaming
strategy.  `insertErrors` is the row-level error count returned by the
external `client.insert_rows` call. -/
def snapshot_upload (df : SDF) (tableExists : Bool)
    (existingKeys : List (List (Option Prim))) (keyCols : List String)
    (insertErrors : Nat) : Except String SnapUploadResult :=
  if df.rows.isEmpty then
    Except.ok ⟨0, 0, 0, Option.none⟩
  else if !tableExists then
    Except.error "BigQuery table not found"
  else
    let filtered := drop_seen_rows df existingKeys keyCols
    if filtered.1.rows.isEmpty then
      Except.ok ⟨0, 0, filtered.2, overwrite_effect df keyCols⟩
    else if insertErrors = 0 then
      Except.ok ⟨filtered.1.rows.length, 0, filtered.2, overwrite_effect df keyCols⟩
    else
      Except.ok ⟨filtered.1.rows.length, insertErrors, filtered.2, Option.none⟩

/-! ## Staged-merge upsert (`big_query/batch_upsert.py`) -/

/-- `pd.to_datetime(v, utc=True, errors='coerce')` elementwise (no `unit`):
datetimes pass through, raw numerics are int64 nanoseconds, nulls and
unparseable values are `NaT` (`Option.none`). -/
def toDatetimeNs : Val → Option Rat
  | .ts q => Option.some q
  | .int n => Option.some (rDiv ((n : Int) : Rat) 1000000000)
  | .float q => Option.some (rDiv q 1000000000)
  | _ => Option.none

/-- Series `.min()` / `.max()` skip nulls; on an all-null series they return
`NaT` (`Option.none`). -/
def seriesMin (l : List Rat) : Option Rat :=
  l.foldl (fun acc x =>
    match acc with
    | Option.none => Option.some x
    | Option.some a => Option.some (min a x)) Option.none

def seriesMax (l : List Rat) : Option Rat :=
  l.foldl (fun acc x =>
    match acc with
    | Option.none => Option.some x
    | Option.some a => Option.some (max a x)) Option.none

/-- `datetime(t.year, t.month, t.day, tzinfo=timezone.utc)`: the start of the
UTC day containing `t`, i.e. `t` floored to a whole day, as epoch seconds. -/
def dayStartS (q : Rat) : Int := 86400 * ratFloor (rDiv q 86400)

/-- The `[lb, ub)` partition-pruning window of `upsert_batch`, in epoch
seconds: `tsCol` is `df["timestamp"]` when that column exists (`Option.none`
when absent), `nowS` is `datetime.now(timezone.utc)`. -/
def compute_merge_window (tsCol : Option (List Val)) (nowS : Rat) : Int × Int :=
  let coerced :=
    match tsCol with
    | Option.none => []
    | Option.some vs => vs.filterMap toDatetimeNs
  match seriesMin coerced, seriesMax coerced with
  | Option.some tsMin, Option.some tsMax => (dayStartS tsMin, dayStartS tsMax + 86400)
  | _, _ => (dayStartS nowS, dayStartS nowS + 86400)

/-- The merge SQL's window predicate `timestamp >= @lb AND timestamp < @ub`
on a cell value; a SQL comparison with NULL is not satisfied. -/
def inWindow (lb ub : Int) (v : Val) : Bool :=
  match toDatetimeNs v with
  | Option.some q => ((lb : Rat) ≤ q) && (q < (ub : Rat))
  | Option.none => false

/-- `updatable_columns`: every destination column except `created_at` gets an
`UPDATE SET target.col = source.col` clause. -/
def updatable_columns (targetColumns : List String) : List String :=
  targetColumns.filter (fun c => c ≠ "created_at")

/-- The effect of the generated `WHEN MATCHED THEN UPDATE SET ...` clause list
on a matched target row (rows are aligned to `targetColumns`): columns with a
clause take the source value, the rest keep the target value. -/
def merge_update_row (targetColumns : List String) (tgt src : List Val) : List Val :=
  targetColumns.map (fun c =>
    if (updatable_columns targetColumns).contains c then cellAt targetColumns src c
    else cellAt targetColumns tgt c)

/-- Denotation of the generated MERGE statement on table states: the staging
source is filtered to the window, destination rows matching a source row on
`record_id` (with the destination row inside the window) are updated, and
source rows matching no destination row are inserted whole (`INSERT ROW`). -/
def merge_exec (targetColumns : List String) (dest source : List (List Val)) (lb ub : Int) :
    List (List Val) :=
  let rid := fun (r : List Val) => cellAt targetColumns r "record_id"
  let tsv := fun (r : List Val) => cellAt targetColumns r "timestamp"
  let srcF := source.filter (fun s => inWindow lb ub (tsv s))
  let updated := dest.map (fun t =>
    match srcF.find? (fun s => (rid s == rid t) && inWindow lb ub (tsv t)) with
    | Option.some s => merge_update_row targetColumns t s
    | Option.none => t)
  let inserted := srcF.filter (fun s =>
    !(dest.any (fun t => (rid t == rid s) && inWindow lb ub (tsv t))))
  updated ++ inserted

/-! ## Write-strategy control flow

Warehouse calls as an observable trace, to settle the cleanup and
missing-table claims.  External failures (load job, merge query, row-level
insert errors) are Boolean parameters. -/

/-- One warehouse side effect. -/
inductive BqOp where
  | createTable (id : String)
  | loadTable (id : String)
  | mergeQuery (stagingId : String)
  | deleteTable (id : String)
  | insertRows (id : String)
  deriving DecidableEq, Repr

/-- The staging-table name: `f"{table_id}_staging_{uuid.uuid4().hex[:8]}"`. -/
def stagingName (tableId suffix : String) : String :=
  tableId ++ "_staging_" ++ suffix

/-- `upsert_batch` control flow.  `dfNonempty` is `not df.empty`;
`tableExists` drives `client.get_table` (a missing table raises `NotFound`,
which the function does not catch); `loadOk` / `mergeOk` are the staging load
job and merge query outcomes.  Returns the outcome and the trace of warehouse
calls; the `finally` block appends the staging-table delete on every path that
reaches the `try`. -/
def upsert_batch_run (tableId suffix : String) (dfNonempty hasRecordId tableExists loadOk mergeOk : Bool) :
    Except String Unit × List BqOp :=
  if !dfNonempty then (Except.ok (), [])
  else if !tableExists then (Except.error "NotFound", [])
  else if !hasRecordId then (Except.error "DataFrame must include record_id column", [])
  else
    let st := stagingName tableId suffix
    let created := [BqOp.createTable st]
    if !loadOk then
      (Except.error "staging load failed", created ++ [BqOp.loadTable st, BqOp.deleteTable st])
    else if !mergeOk then
      (Except.error "merge query failed",
        created ++ [BqOp.loadTable st, BqOp.mergeQuery st, BqOp.deleteTable st])
    else
      (Except.ok (),
        created ++ [BqOp.loadTable st, BqOp.mergeQuery st, BqOp.deleteTable st])

/-- `streaming_method_v1.upload` control flow: a missing table raises
`RuntimeError` before any row is sent. -/
def streaming_upload_run (tableId : String) (dfNonempty tableExists : Bool) :
    Except String Unit × List BqOp :=
  if !dfNonempty then (Except.ok (), [])
  else if !tableExists then (Except.error "BigQuery table not found", [])
  else (Except.ok (), [BqOp.insertRows tableId])

/-- `batch_insert.insert_batch` control flow: the `client.get_table` failure
is logged and re-raised before any load job is submitted. -/
def batch_insert_run (tableId : String) (dfNonempty tableExists : Bool) :
    Except String Unit × List BqOp :=
  if !dfNonempty then (Except.ok (), [])
  else if !tableExists then (Except.error "NotFound", [])
  else (Except.ok (), [BqOp.loadTable tableId])

/-- `streaming_method_bq_snapshot.upload` control flow (table-existence part):
the `NotFound` guard runs before any snapshot or insert call. -/
def snapshot_upload_run (tableId : String) (dfNonempty tableExists : Bool) :
    Except String Unit × List BqOp :=
  if !dfNonempty then (Except.ok (), [])
  else if !tableExists then (Except.error "BigQuery table not found", [])
  else (Except.ok (), [BqOp.insertRows tableId])

/-! ## Dataframe lemmas -/

theorem colIdx_spec {cols : List String} {c : String} {i : Nat}
    (h : cols.findIdx? (fun c2 => c2 = c) = Option.some i) :
    ∃ hi : i < cols.length, cols[i] = c := by
  rw [List.findIdx?_eq_some_iff_getElem] at h
  obtain ⟨hi, hp, -⟩ := h
  exact ⟨hi, by simpa using hp⟩

theorem colIdx_eq_none_iff {cols : List String} {c : String} :
    cols.findIdx? (fun c2 => c2 = c) = Option.none ↔ c ∉ cols := by
  rw [List.findIdx?_eq_none_iff]
  constructor
  · intro h hmem
    simpa using h c hmem
  · intro h x hx
    simp only [decide_eq_false_iff_not]
    intro hxc
    exact h (hxc ▸ hx)

theorem colIdx_isSome_of_mem {cols : List String} {c : String} (h : c ∈ cols) :
    ∃ i, cols.findIdx? (fun c2 => c2 = c) = Option.some i := by
  cases hfi : cols.findIdx? (fun c2 => c2 = c) with
  | none => exact absurd (colIdx_eq_none_iff.mp hfi) (by simpa using h)
  | some i => exact ⟨i, rfl⟩

theorem colIdx_of_nodup {cols : List String} (hnd : cols.Nodup) {i : Nat} (hi : i < cols.length) :
    cols.findIdx? (fun c2 => c2 = cols[i]) = Option.some i := by
  rw [List.findIdx?_eq_some_iff_getElem]
  refine ⟨hi, by simp, fun j hji => ?_⟩
  simp only [decide_eq_true_eq]
  intro hj
  exact absurd (List.Nodup.getElem_inj_iff hnd |>.mp hj) (Nat.ne_of_lt hji)

theorem colIdx_append_self {cols : List String} {c : String} (h : c ∉ cols) :
    (cols ++ [c]).findIdx? (fun c2 => c2 = c) = Option.some cols.length := by
  rw [List.findIdx?_eq_some_iff_getElem]
  refine ⟨by simp, ?_, fun j hj => ?_⟩
  · simp [List.getElem_append_right (Nat.le_refl cols.length)]
  · have hj' : j < cols.length := hj
    simp only [decide_eq_true_eq, List.getElem_append_left hj']
    intro he
    exact h (he ▸ List.getElem_mem hj')

theorem colIdx_append_of_mem {cols : List String} {c c' : String} (h : c ∈ cols) :
    (cols ++ [c']).findIdx? (fun c2 => c2 = c) = cols.findIdx? (fun c2 => c2 = c) := by
  obtain ⟨i, hi⟩ := colIdx_isSome_of_mem h
  have hspec := List.findIdx?_eq_some_iff_getElem.mp hi
  obtain ⟨hlt, hp, hfirst⟩ := hspec
  rw [hi, List.findIdx?_eq_some_iff_getElem]
  refine ⟨by simp; omega, ?_, fun j hj => ?_⟩
  · simpa [List.getElem_append_left hlt] using hp
  · have hj' : j < cols.length := Nat.lt_trans hj hlt
    have := hfirst j hj
    simpa [List.getElem_append_left hj'] using this

theorem map_eq_self_of_forall {α : Type} {l : List α} {f : α → α} (h : ∀ a ∈ l, f a = a) :
    l.map f = l := by
  induction l with
  | nil => rfl
  | cons a as ih =>
    simp only [List.map_cons]
    rw [h a (List.mem_cons_self a as), ih (fun a' ha' => h a' (List.mem_cons_of_mem a ha'))]

theorem map_zipWith_eq_of_fst {α β : Type} {g : α → β} {f : α → Val → α}
    (rows : List α) (vs : List Val) (hlen : vs.length = rows.length)
    (h : ∀ r v, r ∈ rows → g (f r v) = g r) :
    (List.zipWith f rows vs).map g = rows.map g := by
  induction rows generalizing vs with
  | nil => simp
  | cons r rs ih =>
    cases vs with
    | nil => simp at hlen
    | cons v vs' =>
      simp only [List.zipWith_cons_cons, List.map_cons]
      rw [h r v (List.mem_cons_self r rs), ih vs' (by simpa using hlen)
        (fun r' v' hr' => h r' v' (List.mem_cons_of_mem r hr'))]

theorem map_zipWith_eq_snd {α : Type} {g : α → Val} {f : α → Val → α}
    (rows : List α) (vs : List Val) (hlen : vs.length = rows.length)
    (h : ∀ r v, r ∈ rows → g (f r v) = v) :
    (List.zipWith f rows vs).map g = vs := by
  induction rows generalizing vs with
  | nil =>
    have : vs = [] := List.length_eq_zero.mp (by simpa using hlen)
    simp [this]
  | cons r rs ih =>
    cases vs with
    | nil => simp at hlen
    | cons v vs' =>
      simp only [List.zipWith_cons_cons, List.map_cons]
      rw [h r v (List.mem_cons_self r rs), ih vs' (by simpa using hlen)
        (fun r' v' hr' => h r' v' (List.mem_cons_of_mem r hr'))]

theorem exists_of_mem_zipWith {α β γ : Type} {f : α → β → γ} {as : List α} {bs : List β} {x : γ}
    (h : x ∈ List.zipWith f as bs) : ∃ a ∈ as, ∃ b, x = f a b := by
  induction as generalizing bs with
  | nil => simp at h
  | cons a as' ih =>
    cases bs with
    | nil => simp at h
    | cons b bs' =>
      simp only [List.zipWith_cons_cons, List.mem_cons] at h
      cases h with
      | inl he => exact ⟨a, List.mem_cons_self a as', b, he⟩
      | inr hm =>
        obtain ⟨a', ha', b', he'⟩ := ih hm
        exact ⟨a', List.mem_cons_of_mem a ha', b', he'⟩

theorem getD_set_self {r : List Val} {i : Nat} (hi : i < r.length) (v d : Val) :
    (r.set i v).getD i d = v := by
  simp [List.getD_eq_getElem?_getD, List.getElem?_set_self hi]

theorem getD_set_ne {r : List Val} {i j : Nat} (hij : i ≠ j) (v d : Val) :
    (r.set i v).getD j d = r.getD j d := by
  simp [List.getD_eq_getElem?_getD, List.getElem?_set_ne hij]

theorem getD_append_left {r : List Val} {i : Nat} (hi : i < r.length) (v d : Val) :
    (r ++ [v]).getD i d = r.getD i d := by
  simp [List.getD_eq_getElem?_getD, List.getElem?_append_left hi]

theorem getD_append_length {r : List Val} (v d : Val) :
    (r ++ [v]).getD r.length d = v := by
  simp [List.getD_eq_getElem?_getD]

/-- Setting a column and reading it back returns the written values. -/
theorem getCol_setCol_self {df : DF} {c : String} {vs : List Val}
    (hwf : df.wf) (hlen : vs.length = df.rows.length) :
    (df.setCol c vs).getCol c = vs := by
  unfold DF.setCol DF.getCol
  cases hfi : df.cols.findIdx? (fun c2 => c2 = c) with
  | some i =>
    obtain ⟨hi, -⟩ := colIdx_spec hfi
    simp only [cellAt, hfi, Option.map_some', Option.getD_some]
    exact map_zipWith_eq_snd df.rows vs hlen
      (fun r v hr => by rw [getD_set_self (by rw [hwf r hr]; exact hi)])
  | none =>
    have hnm : c ∉ df.cols := colIdx_eq_none_iff.mp hfi
    simp only [cellAt, colIdx_append_self hnm, Option.map_some', Option.getD_some]
    refine map_zipWith_eq_snd df.rows vs hlen (fun r v hr => ?_)
    rw [← hwf r hr]
    exact getD_append_length v (Val.null NullKind.vNan)

/-- Setting one column leaves every other present column unchanged. -/
theorem getCol_setCol_ne {df : DF} {c c' : String} {vs : List Val}
    (hwf : df.wf) (hc : c ∈ df.cols) (hne : c' ≠ c) (hlen : vs.length = df.rows.length) :
    (df.setCol c' vs).getCol c = df.getCol c := by
  obtain ⟨i, hi⟩ := colIdx_isSome_of_mem hc
  obtain ⟨hlt, hgi⟩ := colIdx_spec hi
  unfold DF.setCol DF.getCol
  cases hfi : df.cols.findIdx? (fun c2 => c2 = c') with
  | some i' =>
    obtain ⟨hlt', hgi'⟩ := colIdx_spec hfi
    have hii : i' ≠ i := by
      intro he
      subst he
      exact hne (hgi'.symm.trans hgi)
    simp only [cellAt, hi, Option.map_some', Option.getD_some]
    exact map_zipWith_eq_of_fst df.rows vs hlen
      (fun r v hr => by rw [getD_set_ne hii])
  | none =>
    simp only [cellAt, colIdx_append_of_mem hc, hi, Option.map_some', Option.getD_some]
    refine map_zipWith_eq_of_fst df.rows vs hlen (fun r v hr => ?_)
    exact getD_append_left (by rw [hwf r hr]; exact hlt) v (Val.null NullKind.vNan)

/-- `setCol` preserves row/column alignment. -/
theorem wf_setCol {df : DF} {c : String} {vs : List Val} (hwf : df.wf) :
    (df.setCol c vs).wf := by
  unfold DF.setCol
  cases hfi : df.cols.findIdx? (fun c2 => c2 = c) with
  | some i =>
    intro r hr
    simp only at hr
    obtain ⟨a, ha, b, rfl⟩ := exists_of_mem_zipWith hr
    simp [hwf a ha]
  | none =>
    intro r hr
    simp only at hr
    obtain ⟨a, ha, b, rfl⟩ := exists_of_mem_zipWith hr
    simp [hwf a ha]

theorem rows_length_setCol {df : DF} {c : String} {vs : List Val}
    (hlen : vs.length = df.rows.length) :
    (df.setCol c vs).rows.length = df.rows.length := by
  unfold DF.setCol
  cases df.cols.findIdx? (fun c2 => c2 = c) <;> simp [hlen]

theorem mem_cols_setCol {df : DF} {c c' : String} (h : c ∈ df.cols) :
    c ∈ (df.setCol c' vs).cols := by
  unfold DF.setCol
  cases df.cols.findIdx? (fun c2 => c2 = c') <;> simp [h]

/-- Projection preserves alignment by construction. -/
theorem wf_selectCols (df : DF) (cs : List String) : (df.selectCols cs).wf := by
  intro r hr
  unfold DF.selectCols at hr
  simp only [List.mem_map] at hr
  obtain ⟨a, -, rfl⟩ := hr
  simp [DF.selectCols]

/-- Reading a cell of a row built by mapping over the column list gives the
map's value at that column. -/
theorem cellAt_map {cs : List String} {g : String → Val} {c : String} (hc : c ∈ cs) :
    cellAt cs (cs.map g) c = g c := by
  obtain ⟨i, hi⟩ := colIdx_isSome_of_mem hc
  obtain ⟨hlt, hgi⟩ := colIdx_spec hi
  simp only [cellAt, hi, Option.map_some', Option.getD_some]
  rw [List.getD_eq_getElem?_getD, List.getElem?_map, List.getElem?_eq_getElem hlt]
  simp [hgi]

/-- Reading a projected column returns the original column. -/
theorem getCol_selectCols {df : DF} {cs : List String} {c : String} (hc : c ∈ cs) :
    (df.selectCols cs).getCol c = df.getCol c := by
  unfold DF.selectCols DF.getCol
  simp only [List.map_map]
  refine List.map_congr_left (fun r hr => ?_)
  simp only [Function.comp]
  exact cellAt_map hc

/-- Projecting a well-formed frame onto its own (duplicate-free) column list is
the identity. -/
theorem selectCols_self {df : DF} (hwf : df.wf) (hnd : df.cols.Nodup) :
    df.selectCols df.cols = df := by
  have hrow : ∀ r ∈ df.rows, df.cols.map (cellAt df.cols r) = r := by
    intro r hr
    have hlen : r.length = df.cols.length := hwf r hr
    refine List.ext_getElem (by simp [hlen]) (fun i h1 h2 => ?_)
    have hic : i < df.cols.length := by simpa using h1
    rw [List.getElem_map]
    simp only [cellAt, colIdx_of_nodup hnd hic, Option.map_some', Option.getD_some]
    rw [List.getD_eq_getElem?_getD, List.getElem?_eq_getElem h2]
    rfl
  have hmap : df.rows.map (fun r => df.cols.map (cellAt df.cols r)) = df.rows :=
    map_eq_self_of_forall hrow
  unfold DF.selectCols
  cases df with
  | mk cols rows => simpa using hmap

/-! ## Claim C10 -/

/-- C10: when a schema declares no volatile columns (`COLS_VOLATILE` empty, as
for `StopTimes`), `generate_record_id` returns the frame unchanged — in
particular it adds no `record_id` column — and `deduplicate_by_record_id` on
that output is a no-op (it removes no rows). -/
theorem c10_no_volatile_skips_record_id_and_dedup (sc : Schema) (df : DF)
    (hvol : sc.colsVolatile = []) (hrid : "record_id" ∉ df.cols) :
    generate_record_id df sc = df ∧
    deduplicate_by_record_id (generate_record_id df sc) = generate_record_id df sc ∧
    stopTimes.colsVolatile = [] := by
  have hgen : generate_record_id df sc = df := by
    unfold generate_record_id
    rw [hvol]
    simp
  refine ⟨hgen, ?_, rfl⟩
  rw [hgen]
  unfold deduplicate_by_record_id
  have hcont : df.cols.contains "record_id" = false := by
    simpa using hrid
  simp only [hcont, Bool.not_false, Bool.or_true, if_true]

/-- C10 witness: a concrete `stop_times` frame passes through untouched. -/
theorem c10_witness :
    generate_record_id (DF.mk ["trip_id"] [[Val.str "t1"]]) stopTimes =
      DF.mk ["trip_id"] [[Val.str "t1"]] ∧
    deduplicate_by_record_id (generate_record_id (DF.mk ["trip_id"] [[Val.str "t1"]]) stopTimes) =
      generate_record_id (DF.mk ["trip_id"] [[Val.str "t1"]]) stopTimes ∧
    stopTimes.colsVolatile = [] :=
  c10_no_volatile_skips_record_id_and_dedup stopTimes (DF.mk ["trip_id"] [[Val.str "t1"]])
    rfl (by decide)

/-! ## Claim C7 -/

/-- C7: on every `upsert_batch` run that creates the staging table, the
staging table is deleted before the call returns — after a successful merge,
a failed staging load, and a failed merge query alike — and the delete is the
last warehouse call. -/
theorem c7_staging_always_deleted (tableId suffix : String)
    (dfN hasRid tE lOk mOk : Bool)
    (h : BqOp.createTable (stagingName tableId suffix) ∈
      (upsert_batch_run tableId suffix dfN hasRid tE lOk mOk).2) :
    BqOp.deleteTable (stagingName tableId suffix) ∈
      (upsert_batch_run tableId suffix dfN hasRid tE lOk mOk).2 ∧
    (upsert_batch_run tableId suffix dfN hasRid tE lOk mOk).2.getLast? =
      Option.some (BqOp.deleteTable (stagingName tableId suffix)) := by
  cases dfN <;> cases hasRid <;> cases tE <;> cases lOk <;> cases mOk <;>
    simp_all [upsert_batch_run]

/-- C7 witness: the failed-merge path still ends with the staging delete. -/
theorem c7_witness :
    BqOp.deleteTable (stagingName "p.d.t" "ab12cd34") ∈
      (upsert_batch_run "p.d.t" "ab12cd34" true true true true false).2 ∧
    (upsert_batch_run "p.d.t" "ab12cd34" true true true true false).2.getLast? =
      Option.some (BqOp.deleteTable (stagingName "p.d.t" "ab12cd34")) :=
  c7_staging_always_deleted "p.d.t" "ab12cd34" true true true true false (by decide)

/-! ## Claim C9 -/

theorem stagingName_ne (tableId suffix : String) : stagingName tableId suffix ≠ tableId := by
  intro h
  have hl := congrArg String.length h
  simp only [stagingName, String.length_append] at hl
  have h9 : ("_staging_" : String).length = 9 := rfl
  omega

/-- C9: with a non-empty batch and a missing destination table, every write
strategy (staged-merge, streaming, append, snapshot-streaming) raises and
performs no warehouse write; and no strategy ever issues a create for the
destination table itself (the staged-merge create targets only the
distinct staging name). -/
theorem c9_missing_table_fatal_never_created (tableId suffix : String)
    (hasRid loadOk mergeOk dfN hR tE lOk mOk dfN2 tE2 : Bool) :
    upsert_batch_run tableId suffix true hasRid false loadOk mergeOk =
      (Except.error "NotFound", []) ∧
    streaming_upload_run tableId true false = (Except.error "BigQuery table not found", []) ∧
    batch_insert_run tableId true false = (Except.error "NotFound", []) ∧
    snapshot_upload_run tableId true false = (Except.error "BigQuery table not found", []) ∧
    BqOp.createTable tableId ∉ (upsert_batch_run tableId suffix dfN hR tE lOk mOk).2 ∧
    BqOp.createTable tableId ∉ (streaming_upload_run tableId dfN2 tE2).2 ∧
    BqOp.createTable tableId ∉ (batch_insert_run tableId dfN2 tE2).2 ∧
    BqOp.createTable tableId ∉ (snapshot_upload_run tableId dfN2 tE2).2 := by
  refine ⟨by simp [upsert_batch_run], rfl, rfl, rfl, ?_, ?_, ?_, ?_⟩
  · have hne := stagingName_ne tableId suffix
    have hne2 : tableId ≠ stagingName tableId suffix := fun he => hne he.symm
    cases dfN <;> cases hR <;> cases tE <;> cases lOk <;> cases mOk <;>
      simp_all [upsert_batch_run]
  · cases dfN2 <;> cases tE2 <;> simp [streaming_upload_run]
  · cases dfN2 <;> cases tE2 <;> simp [batch_insert_run]
  · cases dfN2 <;> cases tE2 <;> simp [snapshot_upload_run]

/-- C9 witness at a concrete table id and flag assignment. -/
theorem c9_witness :
    upsert_batch_run "p.d.t" "ab12cd34" true true false true true =
      (Except.error "NotFound", []) ∧
    streaming_upload_run "p.d.t" true false = (Except.error "BigQuery table not found", []) ∧
    batch_insert_run "p.d.t" true false = (Except.error "NotFound", []) ∧
    snapshot_upload_run "p.d.t" true false = (Except.error "BigQuery table not found", []) ∧
    BqOp.createTable "p.d.t" ∉ (upsert_batch_run "p.d.t" "ab12cd34" true true true true true).2 ∧
    BqOp.createTable "p.d.t" ∉ (streaming_upload_run "p.d.t" true true).2 ∧
    BqOp.createTable "p.d.t" ∉ (batch_insert_run "p.d.t" true true).2 ∧
    BqOp.createTable "p.d.t" ∉ (snapshot_upload_run "p.d.t" true true).2 :=
  c9_missing_table_fatal_never_created "p.d.t" "ab12cd34" true true true true true true true true true true

/-! ## Integer-coercion fold lemmas (shared by C8 and C2) -/

theorem getCol_length (df : DF) (c : String) : (df.getCol c).length = df.rows.length := by
  simp [DF.getCol]

theorem coerceStep_wf {res : DF} {c : String} (hwf : res.wf) : (coerceStep res c).wf := by
  unfold coerceStep
  split
  · exact wf_setCol hwf
  · exact hwf

theorem coerceStep_rows_length (res : DF) (c : String) :
    (coerceStep res c).rows.length = res.rows.length := by
  unfold coerceStep
  split
  · exact rows_length_setCol (by simp [DF.getCol])
  · rfl

theorem coerceStep_mem_cols {res : DF} {c c' : String} (h : c' ∈ res.cols) :
    c' ∈ (coerceStep res c).cols := by
  unfold coerceStep
  split
  · exact mem_cols_setCol h
  · exact h

theorem coerceStep_getCol_ne {res : DF} {c c' : String} (hwf : res.wf)
    (hc' : c' ∈ res.cols) (hne : c ≠ c') :
    (coerceStep res c).getCol c' = res.getCol c' := by
  unfold coerceStep
  split
  · exact getCol_setCol_ne hwf hc' hne (by simp [DF.getCol])
  · rfl

theorem coerceStep_getCol_self {res : DF} {c : String} (hwf : res.wf) (hc : c ∈ res.cols) :
    (coerceStep res c).getCol c = (res.getCol c).map coerceIntVal := by
  unfold coerceStep
  rw [if_pos (by simpa using hc)]
  exact getCol_setCol_self hwf (by simp [DF.getCol])

theorem foldCoerce_wf (cs : List String) (res : DF) (hwf : res.wf) :
    (cs.foldl coerceStep res).wf := by
  induction cs generalizing res with
  | nil => exact hwf
  | cons c0 cs' ih => exact ih (coerceStep res c0) (coerceStep_wf hwf)

theorem foldCoerce_getCol_notmem (cs : List String) (res : DF) (c : String)
    (hwf : res.wf) (hc : c ∈ res.cols) (hnm : c ∉ cs) :
    (cs.foldl coerceStep res).getCol c = res.getCol c := by
  induction cs generalizing res with
  | nil => rfl
  | cons c0 cs' ih =>
    have hne : c0 ≠ c := fun he => hnm (he ▸ List.mem_cons_self c0 cs')
    rw [List.foldl_cons,
      ih (coerceStep res c0) (coerceStep_wf hwf) (coerceStep_mem_cols hc)
        (fun hx => hnm (List.mem_cons_of_mem c0 hx)),
      coerceStep_getCol_ne hwf hc hne]

theorem foldCoerce_getCol_mem (cs : List String) (res : DF) (c : String)
    (hwf : res.wf) (hnd : cs.Nodup) (hcs : c ∈ cs) (hc : c ∈ res.cols) :
    (cs.foldl coerceStep res).getCol c = (res.getCol c).map coerceIntVal := by
  induction cs generalizing res with
  | nil => simp at hcs
  | cons c0 cs' ih =>
    rw [List.foldl_cons]
    by_cases he : c0 = c
    · subst he
      have hnm : c0 ∉ cs' := (List.nodup_cons.mp hnd).1
      rw [foldCoerce_getCol_notmem cs' (coerceStep res c0) c0 (coerceStep_wf hwf)
        (coerceStep_mem_cols hc) hnm]
      exact coerceStep_getCol_self hwf hc
    · have hcs' : c ∈ cs' := by
        rcases List.mem_cons.mp hcs with h | h
        · exact absurd h.symm he
        · exact h
      rw [ih (coerceStep res c0) (coerceStep_wf hwf) (List.nodup_cons.mp hnd).2 hcs'
        (coerceStep_mem_cols hc)]
      rw [coerceStep_getCol_ne hwf hc he]

/-! ## Claim C8 -/

/-- C8: for an integer-typed schema field present in a (non-empty, aligned)
frame, the coercion stage maps the column elementwise through `coerceIntVal`,
which sends any numeric with a non-zero fractional part (such as `3.5`) to
null — never to a truncated or rounded integer — passes integral floats,
ints and nulls into the nullable Int64 column, and nulls non-numeric
strings. -/
theorem c8_integer_coercion (sc : Schema) (df : DF) (f : SField)
    (hwf : df.wf) (hnd : sc.colNames.Nodup) (hf : f ∈ sc.columns)
    (hdt : f.dtype = DType.dint) (hpres : f.name ∈ df.cols) (hne : df.rows ≠ []) :
    (coerce_integer_fields_to_nullable_int df sc).getCol f.name =
      (df.getCol f.name).map coerceIntVal ∧
    coerceIntVal (Val.float (mkRat 7 2)) = Val.null NullKind.vNA ∧
    (∀ q : Rat, q.den ≠ 1 → coerceIntVal (Val.float q) = Val.null NullKind.vNA) ∧
    (∀ q : Rat, q.den = 1 → coerceIntVal (Val.float q) = Val.int q.num) ∧
    (∀ n : Int, coerceIntVal (Val.int n) = Val.int n) ∧
    (∀ k : NullKind, coerceIntVal (Val.null k) = Val.null NullKind.vNA) ∧
    (∀ s : String, parseIntStr s = Option.none →
      coerceIntVal (Val.str s) = Val.null NullKind.vNA) := by
  refine ⟨?_, by decide, ?_, ?_, fun n => rfl, fun k => rfl, ?_⟩
  · unfold coerce_integer_fields_to_nullable_int
    rw [if_neg (by simpa using hne)]
    have hmem : f.name ∈ (sc.columns.filter (fun g => g.dtype == DType.dint)).map
        (fun g => g.name) :=
      List.mem_map.mpr ⟨f, List.mem_filter.mpr ⟨hf, by simp [hdt]⟩, rfl⟩
    have hsub : ((sc.columns.filter (fun g => g.dtype == DType.dint)).map
        (fun g => g.name)).Sublist sc.colNames :=
      List.Sublist.map (fun g => g.name) (List.filter_sublist sc.columns)
    exact foldCoerce_getCol_mem _ df f.name hwf (hnd.sublist hsub) hmem hpres
  · intro q hq
    simp [coerceIntVal, toNumeric, hq]
  · intro q hq
    simp [coerceIntVal, toNumeric, hq]
  · intro s hs
    simp [coerceIntVal, toNumeric, hs]

/-- C8 witness: a `stop_times` frame whose `stop_sequence` cell is `3.5` has
that cell nulled (not truncated) by the coercion stage. -/
theorem c8_witness :
    (coerce_integer_fields_to_nullable_int
        (DF.mk ["stop_sequence"] [[Val.float (mkRat 7 2)]]) stopTimes).getCol "stop_sequence" =
      ((DF.mk ["stop_sequence"] [[Val.float (mkRat 7 2)]]).getCol "stop_sequence").map coerceIntVal ∧
    coerceIntVal (Val.float (mkRat 7 2)) = Val.null NullKind.vNA := by
  have h := c8_integer_coercion stopTimes (DF.mk ["stop_sequence"] [[Val.float (mkRat 7 2)]])
    (SField.mk "stop_sequence" DType.dint false Option.none)
    (by intro r hr; simp at hr; simp [hr]) (by decide) (by decide) rfl (by decide) (by decide)
  exact ⟨h.1, h.2.1⟩

/-! ## Claim C5 -/

theorem foldl_min_some (xs : List Rat) (a : Rat) :
    xs.foldl (fun acc x =>
      match acc with
      | Option.none => Option.some x
      | Option.some b => Option.some (min b x)) (Option.some a) =
    Option.some (xs.foldl min a) := by
  induction xs generalizing a with
  | nil => rfl
  | cons x xs' ih => simpa using ih (min a x)

theorem foldl_max_some (xs : List Rat) (a : Rat) :
    xs.foldl (fun acc x =>
      match acc with
      | Option.none => Option.some x
      | Option.some b => Option.some (max b x)) (Option.some a) =
    Option.some (xs.foldl max a) := by
  induction xs generalizing a with
  | nil => rfl
  | cons x xs' ih => simpa using ih (max a x)

theorem foldl_min_le (xs : List Rat) (a : Rat) :
    xs.foldl min a ≤ a ∧ ∀ x ∈ xs, xs.foldl min a ≤ x := by
  induction xs generalizing a with
  | nil => simp
  | cons x xs' ih =>
    obtain ⟨h1, h2⟩ := ih (min a x)
    refine ⟨le_trans h1 (min_le_left a x), fun y hy => ?_⟩
    rcases List.mem_cons.mp hy with rfl | hy'
    · exact le_trans h1 (min_le_right a y)
    · exact h2 y hy'

theorem foldl_max_ge (xs : List Rat) (a : Rat) :
    a ≤ xs.foldl max a ∧ ∀ x ∈ xs, x ≤ xs.foldl max a := by
  induction xs generalizing a with
  | nil => simp
  | cons x xs' ih =>
    obtain ⟨h1, h2⟩ := ih (max a x)
    refine ⟨le_trans (le_max_left a x) h1, fun y hy => ?_⟩
    rcases List.mem_cons.mp hy with rfl | hy'
    · exact le_trans (le_max_right a y) h1
    · exact h2 y hy'

theorem foldl_min_mem (xs : List Rat) (a : Rat) :
    xs.foldl min a = a ∨ xs.foldl min a ∈ xs := by
  induction xs generalizing a with
  | nil => simp
  | cons x xs' ih =>
    rcases ih (min a x) with h | h
    · rcases min_choice a x with hc | hc
      · exact Or.inl (by simp only [List.foldl_cons]; rw [h, hc])
      · refine Or.inr (List.mem_cons.mpr (Or.inl ?_))
        simp only [List.foldl_cons]
        rw [h, hc]
    · exact Or.inr (List.mem_cons_of_mem x h)

theorem foldl_max_mem (xs : List Rat) (a : Rat) :
    xs.foldl max a = a ∨ xs.foldl max a ∈ xs := by
  induction xs generalizing a with
  | nil => simp
  | cons x xs' ih =>
    rcases ih (max a x) with h | h
    · rcases max_choice a x with hc | hc
      · exact Or.inl (by simp only [List.foldl_cons]; rw [h, hc])
      · refine Or.inr (List.mem_cons.mpr (Or.inl ?_))
        simp only [List.foldl_cons]
        rw [h, hc]
    · exact Or.inr (List.mem_cons_of_mem x h)

theorem seriesMin_spec {l : List Rat} {m : Rat} (h : seriesMin l = Option.some m) :
    m ∈ l ∧ ∀ x ∈ l, m ≤ x := by
  cases l with
  | nil => simp [seriesMin] at h
  | cons x xs =>
    unfold seriesMin at h
    rw [List.foldl_cons] at h
    rw [foldl_min_some xs x] at h
    obtain rfl : xs.foldl min x = m := Option.some.injEq _ _ ▸ h
    obtain ⟨h1, h2⟩ := foldl_min_le xs x
    rcases foldl_min_mem xs x with he | hm
    · exact ⟨by rw [he]; exact List.mem_cons_self x xs, fun y hy => by
        rcases List.mem_cons.mp hy with rfl | hy'
        · exact h1
        · exact h2 y hy'⟩
    · exact ⟨List.mem_cons_of_mem x hm, fun y hy => by
        rcases List.mem_cons.mp hy with rfl | hy'
        · exact h1
        · exact h2 y hy'⟩

theorem seriesMax_spec {l : List Rat} {M : Rat} (h : seriesMax l = Option.some M) :
    M ∈ l ∧ ∀ x ∈ l, x ≤ M := by
  cases l with
  | nil => simp [seriesMax] at h
  | cons x xs =>
    unfold seriesMax at h
    rw [List.foldl_cons] at h
    rw [foldl_max_some xs x] at h
    obtain rfl : xs.foldl max x = M := Option.some.injEq _ _ ▸ h
    obtain ⟨h1, h2⟩ := foldl_max_ge xs x
    rcases foldl_max_mem xs x with he | hm
    · exact ⟨by rw [he]; exact List.mem_cons_self x xs, fun y hy => by
        rcases List.mem_cons.mp hy with rfl | hy'
        · exact h1
        · exact h2 y hy'⟩
    · exact ⟨List.mem_cons_of_mem x hm, fun y hy => by
        rcases List.mem_cons.mp hy with rfl | hy'
        · exact h1
        · exact h2 y hy'⟩

/-- C5: for a non-empty staged-merge batch whose `timestamp` column has at
least one coercible value, the partition window is exactly
`[dayStart(min), dayStart(max) + 1 day)` where `min`/`max` are the extreme
coerced timestamps; a row exactly at the upper bound is excluded by the
half-open window predicate; and when the column is absent or entirely
null/uncoercible the window is the current UTC day. -/
theorem c5_partition_window (vs : List Val) (now : Rat) (m M : Rat)
    (hmin : seriesMin (vs.filterMap toDatetimeNs) = Option.some m)
    (hmax : seriesMax (vs.filterMap toDatetimeNs) = Option.some M) :
    compute_merge_window (Option.some vs) now = (dayStartS m, dayStartS M + 86400) ∧
    m ∈ vs.filterMap toDatetimeNs ∧
    M ∈ vs.filterMap toDatetimeNs ∧
    (∀ x ∈ vs.filterMap toDatetimeNs, m ≤ x ∧ x ≤ M) ∧
    inWindow (dayStartS m) (dayStartS M + 86400)
      (Val.ts ((dayStartS M + 86400 : Int) : Rat)) = false ∧
    (∀ vs2 : List Val, vs2.filterMap toDatetimeNs = [] →
      compute_merge_window (Option.some vs2) now = (dayStartS now, dayStartS now + 86400)) ∧
    compute_merge_window Option.none now = (dayStartS now, dayStartS now + 86400) := by
  obtain ⟨hmem, hle⟩ := seriesMin_spec hmin
  obtain ⟨hMem, hge⟩ := seriesMax_spec hmax
  refine ⟨?_, hmem, hMem, fun x hx => ⟨hle x hx, hge x hx⟩, ?_, ?_, ?_⟩
  · simp only [compute_merge_window, hmin, hmax]
  · simp [inWindow, toDatetimeNs]
  · intro vs2 h2
    simp only [compute_merge_window, h2, seriesMin, seriesMax, List.foldl_nil]
  · rfl

/-! ## Claim C3

`_drop_seen_rows` seeds its `seen` set with the snapshot keys but also adds
each kept row's key while iterating, so a row whose key repeats an earlier
batch row is dropped even when that key is not in the snapshot set.  The
claim as stated ("dropped iff the key is in S") is therefore false; the
counterexample below is a two-row batch with equal keys and an empty
snapshot set. -/

theorem dropSeenGo_count (cols keyCols : List String) (rows : List (List SVal))
    (seen : List (List (Option Prim))) :
    (dropSeenGo cols keyCols rows seen).1.length + (dropSeenGo cols keyCols rows seen).2 =
      rows.length := by
  induction rows generalizing seen with
  | nil => rfl
  | cons r rs ih =>
    by_cases hs : seen.contains (keyOfRow cols keyCols r) = true
    · have := ih seen
      simp only [dropSeenGo, hs, if_true, List.length_cons]
      omega
    · have := ih (keyOfRow cols keyCols r :: seen)
      simp only [dropSeenGo, hs, if_false, Bool.false_eq_true, List.length_cons]
      omega

theorem dropSeenGo_eq_amendedKeep (cols keyCols : List String) (rows : List (List SVal))
    (S : List (List (Option Prim))) :
    ∀ (seen prev : List (List (Option Prim))),
    (∀ k, seen.contains k = (S.contains k || prev.contains k)) →
    (dropSeenGo cols keyCols rows seen).1 = amendedKeep cols keyCols S rows prev := by
  induction rows with
  | nil => intro seen prev hinv; rfl
  | cons r rs ih =>
    intro seen prev hinv
    have hinv' : ∀ k, (keyOfRow cols keyCols r :: seen).contains k =
        (S.contains k || (keyOfRow cols keyCols r :: prev).contains k) := by
      intro k
      by_cases hk : k = keyOfRow cols keyCols r
      · subst hk
        simp
      · have hbeq : (k == keyOfRow cols keyCols r) = false := by
          simpa using hk
        simp only [List.contains_cons, hbeq, Bool.false_or]
        exact hinv k
    by_cases hs : seen.contains (keyOfRow cols keyCols r) = true
    · have hsp : (S.contains (keyOfRow cols keyCols r) ||
          prev.contains (keyOfRow cols keyCols r)) = true := by
        rw [← hinv]; exact hs
      have hinv2 : ∀ k, seen.contains k =
          (S.contains k || (keyOfRow cols keyCols r :: prev).contains k) := by
        intro k
        by_cases hk : k = keyOfRow cols keyCols r
        · subst hk
          rw [hs]
          simp
        · have hbeq : (k == keyOfRow cols keyCols r) = false := by
            simpa using hk
          simp only [List.contains_cons, hbeq, Bool.false_or]
          exact hinv k
      simp only [dropSeenGo, amendedKeep, hs, hsp, if_true]
      exact ih seen (keyOfRow cols keyCols r :: prev) hinv2
    · have hsp : (S.contains (keyOfRow cols keyCols r) ||
          prev.contains (keyOfRow cols keyCols r)) = false := by
        rw [← hinv]
        simpa using hs
      simp only [dropSeenGo, amendedKeep, hs, hsp, if_false, Bool.false_eq_true,
        List.cons.injEq, true_and]
      exact ih (keyOfRow cols keyCols r :: seen) (keyOfRow cols keyCols r :: prev) hinv'

/-- C3 counterexample: with an empty snapshot key set — so no row's key is a
member of it — a two-row batch with equal key tuples still loses its second
row, and `skipped = 1`, refuting "a row is dropped iff its key tuple is in
S". -/
theorem c3_counterexample :
    (∀ r ∈ (SDF.mk ["entity_id"] [[SVal.plain (Prim.pstr "a")], [SVal.plain (Prim.pstr "a")]]).rows,
      keyOfRow ["entity_id"] ["entity_id"] r ∉ ([] : List (List (Option Prim)))) ∧
    (drop_seen_rows (SDF.mk ["entity_id"] [[SVal.plain (Prim.pstr "a")], [SVal.plain (Prim.pstr "a")]])
        [] ["entity_id"]).1.rows = [[SVal.plain (Prim.pstr "a")]] ∧
    (drop_seen_rows (SDF.mk ["entity_id"] [[SVal.plain (Prim.pstr "a")], [SVal.plain (Prim.pstr "a")]])
        [] ["entity_id"]).2 = 1 ∧
    (drop_seen_rows (SDF.mk ["entity_id"] [[SVal.plain (Prim.pstr "a")], [SVal.plain (Prim.pstr "a")]])
        [] ["entity_id"]).1.rows ≠
      (SDF.mk ["entity_id"] [[SVal.plain (Prim.pstr "a")], [SVal.plain (Prim.pstr "a")]]).rows := by
  refine ⟨?_, rfl, rfl, by decide⟩
  intro r hr
  simp

/-- C3 (amended): `_drop_seen_rows` keeps exactly the rows whose normalized
key projection is neither in the snapshot set nor a repeat of an earlier
batch row's key; the skipped count equals the number of dropped rows; and the
column list is unchanged. -/
theorem c3_amended_filter (df : SDF) (S : List (List (Option Prim)))
    (keyCols : List String) (hk : keyCols ≠ []) :
    (drop_seen_rows df S keyCols).1.cols = df.cols ∧
    (drop_seen_rows df S keyCols).1.rows = amendedKeep df.cols keyCols S df.rows [] ∧
    (drop_seen_rows df S keyCols).1.rows.length + (drop_seen_rows df S keyCols).2 =
      df.rows.length := by
  unfold drop_seen_rows
  rw [if_neg (by simpa using hk)]
  exact ⟨rfl,
    dropSeenGo_eq_amendedKeep df.cols keyCols df.rows S S [] (fun k => by simp),
    dropSeenGo_count df.cols keyCols df.rows S⟩

/-- C3 amended witness: the scenario from the spec — snapshot holds
`("V1","R100")`, batch holds `("V1","R100")` and `("V2","R200")` — keeps only
the unseen row and reports one skip. -/
theorem c3_witness :
    (drop_seen_rows
        (SDF.mk ["vehicle_id", "route_id"]
          [[SVal.plain (Prim.pstr "V1"), SVal.plain (Prim.pstr "R100")],
           [SVal.plain (Prim.pstr "V2"), SVal.plain (Prim.pstr "R200")]])
        [[Option.some (Prim.pstr "V1"), Option.some (Prim.pstr "R100")]]
        ["vehicle_id", "route_id"]).1.rows =
      amendedKeep ["vehicle_id", "route_id"] ["vehicle_id", "route_id"]
        [[Option.some (Prim.pstr "V1"), Option.some (Prim.pstr "R100")]]
        [[SVal.plain (Prim.pstr "V1"), SVal.plain (Prim.pstr "R100")],
         [SVal.plain (Prim.pstr "V2"), SVal.plain (Prim.pstr "R200")]] [] ∧
    (drop_seen_rows
        (SDF.mk ["vehicle_id", "route_id"]
          [[SVal.plain (Prim.pstr "V1"), SVal.plain (Prim.pstr "R100")],
           [SVal.plain (Prim.pstr "V2"), SVal.plain (Prim.pstr "R200")]])
        [[Option.some (Prim.pstr "V1"), Option.some (Prim.pstr "R100")]]
        ["vehicle_id", "route_id"]).1.rows.length +
      (drop_seen_rows
        (SDF.mk ["vehicle_id", "route_id"]
          [[SVal.plain (Prim.pstr "V1"), SVal.plain (Prim.pstr "R100")],
           [SVal.plain (Prim.pstr "V2"), SVal.plain (Prim.pstr "R200")]])
        [[Option.some (Prim.pstr "V1"), Option.some (Prim.pstr "R100")]]
        ["vehicle_id", "route_id"]).2 = 2 := by
  have h := c3_amended_filter
    (SDF.mk ["vehicle_id", "route_id"]
      [[SVal.plain (Prim.pstr "V1"), SVal.plain (Prim.pstr "R100")],
       [SVal.plain (Prim.pstr "V2"), SVal.plain (Prim.pstr "R200")]])
    [[Option.some (Prim.pstr "V1"), Option.some (Prim.pstr "R100")]]
    ["vehicle_id", "route_id"] (by decide)
  exact ⟨h.2.1, h.2.2⟩

/-! ## Stage-identity and preservation lemmas (for C2) -/

theorem foldl_id {α β : Type} (l : List β) (res : α) (step : α → β → α)
    (h : ∀ acc b, b ∈ l → step acc b = acc) : l.foldl step res = res := by
  induction l generalizing res with
  | nil => rfl
  | cons b l' ih =>
    rw [List.foldl_cons, h res b (List.mem_cons_self b l')]
    exact ih res (fun acc b' hb' => h acc b' (List.mem_cons_of_mem b hb'))

theorem foldl_fixpoint {α β : Type} (l : List β) (y : α) (step : α → β → α)
    (h : ∀ b ∈ l, step y b = y) : l.foldl step y = y := by
  induction l with
  | nil => rfl
  | cons b l' ih =>
    rw [List.foldl_cons, h b (List.mem_cons_self b l')]
    exact ih (fun b' hb' => h b' (List.mem_cons_of_mem b hb'))

theorem list_set_getD_self (l : List Val) (i : Nat) (hi : i < l.length) (d : Val) :
    l.set i (l.getD i d) = l := by
  induction l generalizing i with
  | nil => simp at hi
  | cons a as ih =>
    cases i with
    | zero => rfl
    | succ j =>
      simp only [List.getD_cons_succ, List.set_cons_succ, List.cons.injEq, true_and]
      exact ih j (by simpa using hi)

/-- Writing a present column's own values back is the identity. -/
theorem setCol_self {df : DF} {c : String} (hwf : df.wf) (hc : c ∈ df.cols) :
    df.setCol c (df.getCol c) = df := by
  obtain ⟨i, hfi⟩ := colIdx_isSome_of_mem hc
  obtain ⟨hi, -⟩ := colIdx_spec hfi
  unfold DF.setCol DF.getCol cellAt
  simp only [hfi, Option.map_some', Option.getD_some]
  cases df with
  | mk cols rows =>
    simp only [DF.mk.injEq, true_and]
    rw [List.zipWith_map_right, List.zipWith_same]
    exact map_eq_self_of_forall (fun r hr =>
      list_set_getD_self r i (by rw [hwf r hr]; exact hi) (Val.null NullKind.vNan))

theorem generate_record_id_no_volatile {df : DF} {sc : Schema}
    (h : sc.colsVolatile = []) : generate_record_id df sc = df := by
  unfold generate_record_id
  rw [h]
  simp

theorem generate_entity_id_no_entity {df : DF} {sc : Schema}
    (h : sc.colsEntity = []) : generate_entity_id df sc = df := by
  unfold generate_entity_id
  rw [h]
  simp

theorem apply_schema_field_mappings_no_mapping {df : DF} {sc : Schema}
    (h : sc.colsMapping = []) : apply_schema_field_mappings df sc = df := by
  unfold apply_schema_field_mappings
  rw [h]
  simp

theorem apply_categorical_standardization_no_mapping {df : DF} {sc : Schema}
    (h : sc.categoricalMapping = []) : apply_categorical_standardization df sc = df := by
  unfold apply_categorical_standardization
  rw [h]
  simp

theorem filter_null_rows_no_cols {df : DF} {sc : Schema}
    (h : sc.colsFilterNa = []) : filter_null_rows_by_columns df sc = df := by
  unfold filter_null_rows_by_columns
  rw [h]
  simp

theorem coerce_timestamp_no_cols {df : DF} {sc : Schema}
    (h : sc.colsTimestamp = []) : coerce_timestamp_columns_to_utc df sc = df := by
  unfold coerce_timestamp_columns_to_utc
  rw [h]
  simp

theorem apply_schema_precision_rounding_id {df : DF} {sc : Schema}
    (h7 : ∀ f ∈ sc.columns, f.dtype = DType.dfloat → f.precision = Option.none) :
    apply_schema_precision_rounding df sc = df := by
  unfold apply_schema_precision_rounding
  split
  · rfl
  · refine foldl_id sc.columns df _ (fun acc f hf => ?_)
    by_cases hcond : (df.cols.contains f.name && (f.dtype == DType.dfloat)) = true
    · have hfl : f.dtype = DType.dfloat := by
        have := (Bool.and_eq_true _ _).mp hcond
        simpa using this.2
      rw [if_pos hcond, h7 f hf hfl]
    · rw [if_neg hcond]

theorem dedup_cols (df : DF) : (deduplicate_by_record_id df).cols = df.cols := by
  unfold deduplicate_by_record_id
  split
  · rfl
  · split <;> rfl

theorem dedupFirstByIdx_subset {i : Nat} :
    ∀ (rows : List (List Val)) (seen : List Val) (r : List Val),
      r ∈ dedupFirstByIdx i rows seen → r ∈ rows := by
  intro rows
  induction rows with
  | nil => intro seen r hr; simpa [dedupFirstByIdx] using hr
  | cons a as ih =>
    intro seen r hr
    by_cases hs : seen.contains (a.getD i (Val.null NullKind.vNan)) = true
    · simp only [dedupFirstByIdx, hs, if_true] at hr
      exact List.mem_cons_of_mem a (ih _ r hr)
    · simp only [dedupFirstByIdx, hs, if_false, Bool.false_eq_true] at hr
      rcases List.mem_cons.mp hr with rfl | hr'
      · exact List.mem_cons_self r as
      · exact List.mem_cons_of_mem a (ih _ r hr')

theorem dedup_rows_subset {df : DF} {r : List Val}
    (hr : r ∈ (deduplicate_by_record_id df).rows) : r ∈ df.rows := by
  unfold deduplicate_by_record_id at hr
  split at hr
  · exact hr
  · split at hr
    · exact dedupFirstByIdx_subset df.rows _ r hr
    · exact hr

theorem dedup_wf {df : DF} (hwf : df.wf) : (deduplicate_by_record_id df).wf := by
  intro r hr
  rw [dedup_cols]
  exact hwf r (dedup_rows_subset hr)

theorem dedup_getCol_subset {df : DF} {c : String} {v : Val}
    (hv : v ∈ (deduplicate_by_record_id df).getCol c) : v ∈ df.getCol c := by
  unfold DF.getCol at hv ⊢
  rw [dedup_cols] at hv
  obtain ⟨r, hr, rfl⟩ := List.mem_map.mp hv
  exact List.mem_map.mpr ⟨r, dedup_rows_subset hr, rfl⟩

theorem dedup_not_record_id {df : DF} (h : "record_id" ∉ df.cols) :
    deduplicate_by_record_id df = df := by
  unfold deduplicate_by_record_id
  rw [if_pos]
  simp [h]

theorem coerceIntVal_idem (v : Val) : coerceIntVal (coerceIntVal v) = coerceIntVal v := by
  cases v with
  | float q =>
    by_cases hq : q.den = 1 <;> simp [coerceIntVal, toNumeric, hq]
  | str s =>
    cases hp : parseIntStr s <;> simp [coerceIntVal, toNumeric, hp]
  | _ => simp [coerceIntVal, toNumeric]

theorem coerceStep_cols (res : DF) (c : String) : (coerceStep res c).cols = res.cols := by
  unfold coerceStep
  split
  · next hcont =>
    unfold DF.setCol
    obtain ⟨i, hi⟩ := colIdx_isSome_of_mem (by simpa using hcont)
    rw [hi]
  · rfl

theorem foldCoerce_cols (cs : List String) (res : DF) :
    (cs.foldl coerceStep res).cols = res.cols := by
  induction cs generalizing res with
  | nil => rfl
  | cons c0 cs' ih => rw [List.foldl_cons, ih, coerceStep_cols]

/-- A column whose values are all `coerceIntVal`-fixed is untouched by its
coercion step. -/
theorem coerceStep_fixpoint {res : DF} {c : String} (hwf : res.wf)
    (hfix : ∀ v ∈ res.getCol c, coerceIntVal v = v) : coerceStep res c = res := by
  unfold coerceStep
  split
  · next hcont =>
    rw [map_eq_self_of_forall hfix]
    exact setCol_self hwf (by simpa using hcont)
  · rfl

/-! ### `add_missing_schema_fields` fold lemmas -/

theorem addStep_wf {d res : DF} {f : SField} (hwf : res.wf) : (addMissingStep d res f).wf := by
  unfold addMissingStep
  split
  · exact hwf
  · exact wf_setCol hwf

theorem addStep_rows_length (d res : DF) (f : SField) :
    (addMissingStep d res f).rows.length = res.rows.length := by
  unfold addMissingStep
  split
  · rfl
  · exact rows_length_setCol (by simp)

theorem addStep_mem_cols {d res : DF} {f : SField} {c : String} (h : c ∈ res.cols) :
    c ∈ (addMissingStep d res f).cols := by
  unfold addMissingStep
  split
  · exact h
  · exact mem_cols_setCol h

theorem addStep_getCol_ne {d res : DF} {f : SField} {c : String} (hwf : res.wf)
    (hc : c ∈ res.cols) (hne : f.name ≠ c) :
    (addMissingStep d res f).getCol c = res.getCol c := by
  unfold addMissingStep
  split
  · rfl
  · exact getCol_setCol_ne hwf hc hne (by simp)

theorem addFold_wf (l : List SField) (d res : DF) (hwf : res.wf) :
    (l.foldl (addMissingStep d) res).wf := by
  induction l generalizing res with
  | nil => exact hwf
  | cons f l' ih => exact ih (addMissingStep d res f) (addStep_wf hwf)

theorem addFold_mem_cols (l : List SField) (d res : DF) {c : String} (h : c ∈ res.cols) :
    c ∈ (l.foldl (addMissingStep d) res).cols := by
  induction l generalizing res with
  | nil => exact h
  | cons f l' ih => exact ih (addMissingStep d res f) (addStep_mem_cols h)

theorem addFold_getCol_preserved (l : List SField) (d res : DF) {c : String}
    (hwf : res.wf) (hc : c ∈ res.cols) (hl : ∀ f ∈ l, f.name ≠ c) :
    (l.foldl (addMissingStep d) res).getCol c = res.getCol c := by
  induction l generalizing res with
  | nil => rfl
  | cons f l' ih =>
    rw [List.foldl_cons,
      ih (addMissingStep d res f) (addStep_wf hwf) (addStep_mem_cols hc)
        (fun f' hf' => hl f' (List.mem_cons_of_mem f hf')),
      addStep_getCol_ne hwf hc (hl f (List.mem_cons_self f l'))]

theorem addFold_mem_cols_of_field (l : List SField) (d res : DF)
    (hsub : ∀ g ∈ l, g.name ∈ d.cols → g.name ∈ res.cols) :
    ∀ f ∈ l, f.name ∈ (l.foldl (addMissingStep d) res).cols := by
  induction l generalizing res with
  | nil => intro f hf; simp at hf
  | cons g l' ih =>
    intro f hf
    rw [List.foldl_cons]
    rcases List.mem_cons.mp hf with rfl | hf'
    · by_cases hd : d.cols.contains f.name = true
      · have : f.name ∈ res.cols := hsub f (List.mem_cons_self f l') (by simpa using hd)
        exact addFold_mem_cols l' d _ (addStep_mem_cols this)
      · have : f.name ∈ (addMissingStep d res f).cols := by
          unfold addMissingStep
          rw [if_neg hd]
          unfold DF.setCol
          cases hfi : res.cols.findIdx? (fun c2 => c2 = f.name) with
          | some i =>
            obtain ⟨hi, hgi⟩ := colIdx_spec hfi
            exact hgi ▸ List.getElem_mem hi
          | none => simp
        exact addFold_mem_cols l' d _ this
    · exact ih (addMissingStep d res g) (fun g' hg' hgd =>
        addStep_mem_cols (hsub g' (List.mem_cons_of_mem g hg') hgd)) f hf'

/-- The column added for a schema field absent from the input holds only the
type-appropriate null (provided no later field reuses the name). -/
theorem addFold_getCol_added (l : List SField) (d : DF) :
    ∀ (res : DF) (f : SField), res.wf → f ∈ l → (l.map (fun g => g.name)).Nodup →
    d.cols.contains f.name = false → f.name ∉ res.cols →
    ∀ v ∈ (l.foldl (addMissingStep d) res).getCol f.name, v = defaultForDType f.dtype := by
  induction l with
  | nil => intro res f _ hf; simp at hf
  | cons g l' ih =>
    intro res f hwf hf hnd hd hnr
    rw [List.foldl_cons]
    rcases List.mem_cons.mp hf with rfl | hf'
    · have hstep : (addMissingStep d res f).getCol f.name =
          List.replicate res.rows.length (defaultForDType f.dtype) := by
        unfold addMissingStep
        rw [if_neg (by rw [hd]; simp)]
        exact getCol_setCol_self hwf (by simp)
      have hpres : (l'.foldl (addMissingStep d) (addMissingStep d res f)).getCol f.name =
          (addMissingStep d res f).getCol f.name := by
        have hmem : f.name ∈ (addMissingStep d res f).cols := by
          unfold addMissingStep
          rw [if_neg (by rw [hd]; simp)]
          unfold DF.setCol
          rw [colIdx_eq_none_iff.mpr hnr]
          simp
        refine addFold_getCol_preserved l' d _ (addStep_wf hwf) hmem (fun f' hf' => ?_)
        have hnd' : (f.name :: l'.map (fun x => x.name)).Nodup := by
          rw [← List.map_cons]
          exact hnd
        intro he
        exact (List.nodup_cons.mp hnd').1 (he ▸ List.mem_map.mpr ⟨f', hf', rfl⟩)
      intro v hv
      rw [hpres, hstep] at hv
      exact List.eq_of_mem_replicate hv
    · have hnr' : f.name ∉ (addMissingStep d res g).cols := by
        unfold addMissingStep
        split
        · exact hnr
        · unfold DF.setCol
          cases hfi : res.cols.findIdx? (fun c2 => c2 = g.name) with
          | some i => exact hnr
          | none =>
            intro hmem
            rcases List.mem_append.mp hmem with h | h
            · exact hnr h
            · have hgname : f.name = g.name := by simpa using h
              have hnd' : (g.name :: l'.map (fun x => x.name)).Nodup := by
                rw [← List.map_cons]
                exact hnd
              exact (List.nodup_cons.mp hnd').1
                (hgname ▸ List.mem_map.mpr ⟨f, hf', rfl⟩)
      have hnd' : (g.name :: l'.map (fun x => x.name)).Nodup := by
        rw [← List.map_cons]
        exact hnd
      exact ih (addMissingStep d res g) f (addStep_wf hwf) hf'
        (List.nodup_cons.mp hnd').2 hd hnr'

theorem addFold_getCol_present (l : List SField) (d res : DF) {c : String}
    (hwf : res.wf) (hc : c ∈ res.cols) (hd : c ∈ d.cols) :
    (l.foldl (addMissingStep d) res).getCol c = res.getCol c := by
  induction l generalizing res with
  | nil => rfl
  | cons f l' ih =>
    rw [List.foldl_cons]
    by_cases he : f.name = c
    · have hstep : addMissingStep d res f = res := by
        unfold addMissingStep
        rw [if_pos (by rw [he]; simpa using hd)]
      rw [hstep]
      exact ih res hwf hc
    · rw [ih (addMissingStep d res f) (addStep_wf hwf) (addStep_mem_cols hc),
        addStep_getCol_ne hwf hc he]

theorem add_missing_empty {df : DF} {sc : Schema} (h : df.rows.isEmpty = true) :
    add_missing_schema_fields df sc = df := by
  unfold add_missing_schema_fields
  rw [if_pos h]

theorem drop_extra_empty {df : DF} {sc : Schema} (h : df.rows.isEmpty = true) :
    drop_extra_columns_not_in_schema df sc = df := by
  unfold drop_extra_columns_not_in_schema
  rw [if_pos h]

theorem order_empty {df : DF} {sc : Schema} (h : df.rows.isEmpty = true) :
    order_columns_by_schema df sc = df := by
  unfold order_columns_by_schema
  rw [if_pos h]

theorem dedup_empty {df : DF} (h : df.rows.isEmpty = true) :
    deduplicate_by_record_id df = df := by
  unfold deduplicate_by_record_id
  rw [if_pos (by simp [h])]

theorem coerce_int_empty {df : DF} {sc : Schema} (h : df.rows.isEmpty = true) :
    coerce_integer_fields_to_nullable_int df sc = df := by
  unfold coerce_integer_fields_to_nullable_int
  rw [if_pos h]

theorem drop_extra_wf {df : DF} {sc : Schema} (hwf : df.wf) :
    (drop_extra_columns_not_in_schema df sc).wf := by
  unfold drop_extra_columns_not_in_schema
  split
  · exact hwf
  · by_cases hx : (df.cols.filter (fun c => !sc.colNames.contains c)).isEmpty = true
    · simp only [hx, if_true]
      exact hwf
    · simp only [hx, if_false, Bool.false_eq_true]
      exact wf_selectCols df _

theorem drop_extra_getCol {df : DF} {sc : Schema} {c : String}
    (hc : c ∈ df.cols) (hcs : c ∈ sc.colNames) :
    (drop_extra_columns_not_in_schema df sc).getCol c = df.getCol c := by
  unfold drop_extra_columns_not_in_schema
  split
  · rfl
  · by_cases hx : (df.cols.filter (fun c => !sc.colNames.contains c)).isEmpty = true
    · simp only [hx, if_true]
    · simp only [hx, if_false, Bool.false_eq_true]
      exact getCol_selectCols (List.mem_filter.mpr ⟨hc, by simpa using hcs⟩)

theorem drop_extra_mem_cols {df : DF} {sc : Schema} {c : String}
    (hc : c ∈ df.cols) (hcs : c ∈ sc.colNames) :
    c ∈ (drop_extra_columns_not_in_schema df sc).cols := by
  unfold drop_extra_columns_not_in_schema
  split
  · exact hc
  · by_cases hx : (df.cols.filter (fun c => !sc.colNames.contains c)).isEmpty = true
    · simp only [hx, if_true]
      exact hc
    · simp only [hx, if_false, Bool.false_eq_true]
      exact List.mem_filter.mpr ⟨hc, by simpa using hcs⟩

theorem validate_ok_eq {df v : DF} {sc : Schema} (h : validate df sc = Except.ok v) :
    v = df := by
  unfold validate at h
  split at h
  · exact absurd h (by simp)
  · split at h
    · exact absurd h (by simp)
    · exact (Except.ok.injEq _ _ ▸ h).symm

/-- With every schema column present and a non-empty schema and frame,
`order_columns_by_schema` is exactly the projection onto the schema's column
list. -/
theorem order_all_present {df : DF} {sc : Schema}
    (hall : ∀ n ∈ sc.colNames, n ∈ df.cols) (h11 : sc.columns ≠ [])
    (hne : ¬df.rows.isEmpty = true) :
    order_columns_by_schema df sc = df.selectCols sc.colNames := by
  unfold order_columns_by_schema
  rw [if_neg hne]
  have hfilter : sc.colNames.filter (fun c => df.cols.contains c) = sc.colNames :=
    List.filter_eq_self.mpr (fun c hc => by simpa using hall c hc)
  rw [hfilter, if_neg ?hne2]
  case hne2 =>
    intro h
    rw [List.isEmpty_iff] at h
    exact h11 (by
      have : sc.columns.map (fun f => f.name) = [] := h
      exact List.map_eq_nil.mp this)

theorem foldl_wf_of_step {β : Type} (step : DF → β → DF)
    (hstep : ∀ res b, res.wf → (step res b).wf) :
    ∀ (l : List β) (res : DF), res.wf → (l.foldl step res).wf := by
  intro l
  induction l with
  | nil => intro res h; exact h
  | cons b l' ih => intro res h; exact ih (step res b) (hstep res b h)

theorem epoch_wf {df : DF} (hwf : df.wf) : (convert_epoch_timestamps_to_utc df).wf := by
  unfold convert_epoch_timestamps_to_utc
  split
  · exact hwf
  · exact foldl_wf_of_step _ (fun res b h => wf_setCol h) _ df hwf

theorem coerce_int_cols (df : DF) (sc : Schema) :
    (coerce_integer_fields_to_nullable_int df sc).cols = df.cols := by
  unfold coerce_integer_fields_to_nullable_int
  split
  · rfl
  · exact foldCoerce_cols _ df

theorem coerce_int_wf {df : DF} {sc : Schema} (hwf : df.wf) :
    (coerce_integer_fields_to_nullable_int df sc).wf := by
  unfold coerce_integer_fields_to_nullable_int
  split
  · exact hwf
  · exact foldCoerce_wf _ df hwf

theorem add_missing_wf {df : DF} {sc : Schema} (hwf : df.wf) :
    (add_missing_schema_fields df sc).wf := by
  unfold add_missing_schema_fields
  split
  · exact hwf
  · exact addFold_wf sc.columns df df hwf

/-! ## Claim C2 (amended theorem)

Re-running the pipeline is the identity on its own output for contracts with
no alias mappings, categorical maps, volatile/entity/filter-null/timestamp
column lists, no float precision metadata, no `_s`-suffixed column and no
`record_id` column — the shape of the static-schedule contracts such as
`StopTimes`.  (For the realtime contracts the property fails; see the C2
counterexample.) -/
theorem c2_amended_idempotent_restricted (sc : Schema) (df y : DF)
    (h1 : sc.colsMapping = []) (h2 : sc.categoricalMapping = [])
    (h3 : sc.colsVolatile = []) (h4 : sc.colsEntity = [])
    (h5 : sc.colsFilterNa = []) (h6 : sc.colsTimestamp = [])
    (h7 : ∀ f ∈ sc.columns, f.dtype = DType.dfloat → f.precision = Option.none)
    (h8 : ∀ c ∈ sc.colNames, strEndsWith c "_s" = false)
    (h9 : "record_id" ∉ sc.colNames) (h10 : sc.colNames.Nodup)
    (h11 : sc.columns ≠ []) (hwf : df.wf)
    (hrun : clean_and_validate_dataframe df sc = Except.ok y) :
    clean_and_validate_dataframe y sc = Except.ok y := by
  unfold clean_and_validate_dataframe at hrun
  by_cases hemp : df.rows.isEmpty = true
  · rw [if_pos hemp] at hrun
    have hdy : df = y := by
      have := hrun
      simp only [Except.ok.injEq] at this
      exact this
    subst hdy
    unfold clean_and_validate_dataframe
    rw [if_pos hemp]
  · rw [if_neg hemp] at hrun
    simp only [apply_schema_field_mappings_no_mapping h1,
      apply_categorical_standardization_no_mapping h2,
      generate_record_id_no_volatile h3, generate_entity_id_no_entity h4,
      filter_null_rows_no_cols h5, apply_schema_precision_rounding_id h7,
      coerce_timestamp_no_cols h6] at hrun
    set d2 := convert_epoch_timestamps_to_utc df with hd2def
    set d5 := coerce_integer_fields_to_nullable_int d2 sc with hd5def
    set d8 := deduplicate_by_record_id d5 with hd8def
    set d10 := add_missing_schema_fields d8 sc with hd10def
    set d11 := drop_extra_columns_not_in_schema d10 sc with hd11def
    set d12 := order_columns_by_schema d11 sc with hd12def
    cases hval : validate d12 sc with
    | error e =>
      rw [hval] at hrun
      exact absurd hrun (by simp)
    | ok v =>
      rw [hval] at hrun
      have hvy : v = y := by simpa using hrun
      have hyd12 : y = d12 := by rw [← hvy, validate_ok_eq hval]
      by_cases hyemp : y.rows.isEmpty = true
      · unfold clean_and_validate_dataframe
        rw [if_pos hyemp]
      · -- frame shapes: from the output backwards
        have hd2wf : d2.wf := epoch_wf hwf
        have hd5wf : d5.wf := coerce_int_wf hd2wf
        have hd8wf : d8.wf := dedup_wf hd5wf
        have hd10wf : d10.wf := add_missing_wf hd8wf
        have hd11wf : d11.wf := drop_extra_wf hd10wf
        have hd8ne : ¬d8.rows.isEmpty = true := by
          intro h8e
          have e10 : d10 = d8 := add_missing_empty h8e
          have e11 : d11 = d8 := by rw [hd11def, e10]; exact drop_extra_empty h8e
          have e12 : d12 = d8 := by rw [hd12def, e11]; exact order_empty h8e
          rw [hyd12, e12] at hyemp
          exact hyemp h8e
        have hd5ne : ¬d5.rows.isEmpty = true := by
          intro h5e
          exact hd8ne (by rw [hd8def, dedup_empty h5e]; exact h5e)
        have hd2ne : ¬d2.rows.isEmpty = true := by
          intro h2e
          exact hd5ne (by rw [hd5def, coerce_int_empty h2e]; exact h2e)
        -- every schema column is present in d10
        have hpres10 : ∀ f ∈ sc.columns, f.name ∈ d10.cols := by
          intro f hf
          have h10eq : d10 = sc.columns.foldl (addMissingStep d8) d8 := by
            rw [hd10def]
            unfold add_missing_schema_fields
            rw [if_neg hd8ne]
          rw [h10eq]
          exact addFold_mem_cols_of_field sc.columns d8 d8 (fun g hg hgd => hgd) f hf
        have hpres11 : ∀ f ∈ sc.columns, f.name ∈ d11.cols := fun f hf =>
          drop_extra_mem_cols (hpres10 f hf) (List.mem_map.mpr ⟨f, hf, rfl⟩)
        have h12sel : d12 = d11.selectCols sc.colNames := by
          rw [hd12def]
          refine order_all_present (fun n hn => ?_) h11 ?_
          · obtain ⟨f, hf, rfl⟩ := List.mem_map.mp hn
            exact hpres11 f hf
          · intro h11e
            have e12 : d12 = d11 := order_empty h11e
            rw [hyd12, e12] at hyemp
            exact hyemp h11e
        have hycols : y.cols = sc.colNames := by rw [hyd12, h12sel]; rfl
        have hywf : y.wf := by rw [hyd12, h12sel]; exact wf_selectCols d11 _
        -- the integer columns of the output are coerceIntVal-fixed
        have hyfix : ∀ f ∈ sc.columns, f.dtype = DType.dint →
            ∀ v ∈ y.getCol f.name, coerceIntVal v = v := by
          intro f hf hdt v hv
          have hnamesc : f.name ∈ sc.colNames := List.mem_map.mpr ⟨f, hf, rfl⟩
          have hy11 : y.getCol f.name = d11.getCol f.name := by
            rw [hyd12, h12sel]
            exact getCol_selectCols hnamesc
          have h1110 : d11.getCol f.name = d10.getCol f.name := by
            rw [hd11def]
            exact drop_extra_getCol (hpres10 f hf) hnamesc
          have h10eq : d10 = sc.columns.foldl (addMissingStep d8) d8 := by
            rw [hd10def]
            unfold add_missing_schema_fields
            rw [if_neg hd8ne]
          by_cases hin8 : f.name ∈ d8.cols
          · have h108 : d10.getCol f.name = d8.getCol f.name := by
              rw [h10eq]
              exact addFold_getCol_present sc.columns d8 d8 hd8wf hin8 hin8
            have hin2 : f.name ∈ d2.cols := by
              have hcols85 : d8.cols = d5.cols := by rw [hd8def]; exact dedup_cols d5
              have hcols52 : d5.cols = d2.cols := by rw [hd5def]; exact coerce_int_cols d2 sc
              rw [← hcols52, ← hcols85]
              exact hin8
            have h5col : d5.getCol f.name = (d2.getCol f.name).map coerceIntVal := by
              rw [hd5def]
              unfold coerce_integer_fields_to_nullable_int
              rw [if_neg hd2ne]
              have hmem : f.name ∈ (sc.columns.filter (fun g => g.dtype == DType.dint)).map
                  (fun g => g.name) :=
                List.mem_map.mpr ⟨f, List.mem_filter.mpr ⟨hf, by simp [hdt]⟩, rfl⟩
              have hsub : ((sc.columns.filter (fun g => g.dtype == DType.dint)).map
                  (fun g => g.name)).Sublist sc.colNames :=
                List.Sublist.map (fun g => g.name) (List.filter_sublist sc.columns)
              exact foldCoerce_getCol_mem _ d2 f.name hd2wf (h10.sublist hsub) hmem hin2
            rw [hy11, h1110, h108] at hv
            have hv5 : v ∈ d5.getCol f.name := by rw [hd8def] at hv; exact dedup_getCol_subset hv
            rw [h5col] at hv5
            obtain ⟨w, -, rfl⟩ := List.mem_map.mp hv5
            exact coerceIntVal_idem w
          · have hvadd : v = defaultForDType f.dtype := by
              rw [hy11, h1110, h10eq] at hv
              refine addFold_getCol_added sc.columns d8 d8 f hd8wf hf ?_ ?_ hin8 v hv
              · exact h10
              · simpa using hin8
            rw [hvadd, hdt]
            rfl
        -- second pass: every stage is the identity on y
        have hepochy : convert_epoch_timestamps_to_utc y = y := by
          unfold convert_epoch_timestamps_to_utc
          rw [if_neg hyemp]
          have hfil : y.cols.filter (fun c => strEndsWith c "_s") = [] := by
            rw [hycols]
            exact List.filter_eq_nil.mpr (fun c hc => by simp [h8 c hc])
          rw [hfil]
          rfl
        have hcoercey : coerce_integer_fields_to_nullable_int y sc = y := by
          unfold coerce_integer_fields_to_nullable_int
          rw [if_neg hyemp]
          refine foldl_fixpoint _ y coerceStep (fun c hc => ?_)
          obtain ⟨f, hfmem, rfl⟩ := List.mem_map.mp hc
          have hfint : f.dtype = DType.dint := by
            have := (List.mem_filter.mp hfmem).2
            simpa using this
          exact coerceStep_fixpoint hywf (hyfix f (List.mem_filter.mp hfmem).1 hfint)
        have hdedupy : deduplicate_by_record_id y = y :=
          dedup_not_record_id (by rw [hycols]; exact h9)
        have haddy : add_missing_schema_fields y sc = y := by
          unfold add_missing_schema_fields
          rw [if_neg hyemp]
          refine foldl_id _ y _ (fun acc f hf => ?_)
          unfold addMissingStep
          rw [if_pos (by
            have : f.name ∈ y.cols := by
              rw [hycols]
              exact List.mem_map.mpr ⟨f, hf, rfl⟩
            simpa using this)]
        have hdropy : drop_extra_columns_not_in_schema y sc = y := by
          unfold drop_extra_columns_not_in_schema
          rw [if_neg hyemp]
          have hfil : y.cols.filter (fun c => !sc.colNames.contains c) = [] := by
            rw [hycols]
            refine List.filter_eq_nil.mpr (fun c hc => by simp; exact hc)
          rw [hfil]
          simp
        have hordy : order_columns_by_schema y sc = y := by
          have := @order_all_present y sc
            (fun n hn => by rw [hycols]; exact hn) h11 hyemp
          rw [this, ← hycols]
          exact selectCols_self hywf (by rw [hycols]; exact h10)
        have hvaly : validate y sc = Except.ok y := by
          rw [hyd12]
          rw [validate_ok_eq hval] at hval
          exact hval
        unfold clean_and_validate_dataframe
        rw [if_neg hyemp]
        simp only [apply_schema_field_mappings_no_mapping h1,
          apply_categorical_standardization_no_mapping h2,
          generate_record_id_no_volatile h3, generate_entity_id_no_entity h4,
          filter_null_rows_no_cols h5, apply_schema_precision_rounding_id h7,
          coerce_timestamp_no_cols h6]
        rw [hepochy, hcoercey, hdedupy, haddy, hdropy, hordy, hvaly]

set_option maxRecDepth 1000000 in
/-- C2 counterexample: a valid (non-empty, validation-passing) realtime
vehicle-positions batch cleans successfully, but running the pipeline again
on its own output fails outright: the alias re-mapping stage keeps only the
target columns whose source paths occur in the output, dropping `entity_id`
(among others), and the second pass's validation then rejects the batch —
the second pass is not a no-op. -/
theorem c2_counterexample :
    (clean_and_validate_dataframe vpInput vehiclePositions).isOk = true ∧
    ((clean_and_validate_dataframe vpInput vehiclePositions).bind
      (fun y => clean_and_validate_dataframe y vehiclePositions)) =
      Except.error "non-nullable series contains null values: entity_id" :=
  ⟨by decide, by decide⟩

set_option maxRecDepth 1000000 in
/-- C2 amended witness: a concrete `stop_times` batch cleans to `stOutput`,
and a second pass returns `stOutput` unchanged. -/
theorem c2_witness : clean_and_validate_dataframe stOutput stopTimes = Except.ok stOutput :=
  c2_amended_idempotent_restricted stopTimes stInput stOutput
    rfl rfl rfl rfl rfl rfl
    (by decide) (by decide) (by decide) (by decide) (by decide)
    (by intro r hr; simp [stInput] at hr; simp [hr, stInput])
    (by decide)

/-! ## Claim C1

`generate_record_id` hashes `df[cols_for_hash].astype(str).sum(axis=1)`:
the concatenation runs over the frame's columns in their current order, so the
hash input — and hence `record_id` — changes when the input table's columns
are permuted.  The claim's order-invariance is false; what does hold is that
`record_id` is independent of the volatile columns' values (and of row
content on volatile fields) for frames with the same column order. -/

set_option maxRecDepth 100000 in
/-- C1 counterexample: two one-row tables that are column permutations of
each other (same cells, columns swapped) receive different `record_id`s under
the `VehiclePositions` contract: the hash input is `"xy"` in one order and
`"yx"` in the other. -/
theorem c1_counterexample :
    (DF.mk ["route_id", "trip_id"] [[Val.str "y", Val.str "x"]]).cols.Perm
      (DF.mk ["trip_id", "route_id"] [[Val.str "x", Val.str "y"]]).cols ∧
    (∀ c ∈ (DF.mk ["trip_id", "route_id"] [[Val.str "x", Val.str "y"]]).cols,
      (DF.mk ["route_id", "trip_id"] [[Val.str "y", Val.str "x"]]).getCol c =
        (DF.mk ["trip_id", "route_id"] [[Val.str "x", Val.str "y"]]).getCol c) ∧
    (generate_record_id (DF.mk ["trip_id", "route_id"] [[Val.str "x", Val.str "y"]])
        vehiclePositions).getCol "record_id" ≠
      (generate_record_id (DF.mk ["route_id", "trip_id"] [[Val.str "y", Val.str "x"]])
        vehiclePositions).getCol "record_id" := by
  refine ⟨by decide, by decide, by decide⟩

theorem cellAt_not_mem {cols : List String} {r : List Val} {c : String} (h : c ∉ cols) :
    cellAt cols r c = Val.null NullKind.vNan := by
  simp [cellAt, colIdx_eq_none_iff.mpr h]

theorem getD_eq_getElem_rows {rows : List (List Val)} {i : Nat} (h : i < rows.length) :
    rows.getD i [] = rows[i] := by
  rw [List.getD_eq_getElem?_getD, List.getElem?_eq_getElem h]
  rfl

/-- C1 (amended): for a fixed column order, `record_id` does not depend on
the values stored in the contract's volatile columns: two aligned frames with
the same columns and the same row count whose rows agree on every
non-volatile column receive identical `record_id` columns. -/
theorem c1_amended_volatile_independent (sc : Schema) (df df' : DF)
    (hwf : df.wf) (hwf' : df'.wf) (hcols : df'.cols = df.cols)
    (hlen : df'.rows.length = df.rows.length)
    (hsome : ∃ c ∈ df.cols, c ∉ sc.colsVolatile)
    (hagree : ∀ i, i < df.rows.length → ∀ c ∈ df.cols, c ∉ sc.colsVolatile →
      cellAt df.cols (df.rows.getD i []) c = cellAt df.cols (df'.rows.getD i []) c) :
    (generate_record_id df sc).getCol "record_id" =
      (generate_record_id df' sc).getCol "record_id" := by
  obtain ⟨cw, hcw, hcwv⟩ := hsome
  by_cases hemp : df.rows.isEmpty = true
  · have hnil : df.rows = [] := List.isEmpty_iff.mp hemp
    have hnil' : df'.rows = [] := List.length_eq_zero.mp (by rw [hlen, hnil]; rfl)
    have hemp' : df'.rows.isEmpty = true := by simp [hnil']
    unfold generate_record_id
    rw [if_pos hemp, if_pos hemp']
    unfold DF.getCol
    rw [hnil, hnil']
    rfl
  · have hemp' : ¬df'.rows.isEmpty = true := by
      rw [List.isEmpty_iff] at hemp ⊢
      intro h
      exact hemp (List.length_eq_zero.mp (by rw [← hlen, h]; rfl))
    unfold generate_record_id
    rw [if_neg hemp, if_neg hemp']
    by_cases hvol : sc.colsVolatile.isEmpty = true
    · rw [if_pos hvol, if_pos hvol]
      have hvolnil : sc.colsVolatile = [] := List.isEmpty_iff.mp hvol
      unfold DF.getCol
      rw [hcols]
      refine List.ext_getElem (by simp [hlen]) (fun i h1 h2 => ?_)
      rw [List.getElem_map, List.getElem_map]
      have hi : i < df.rows.length := by simpa using h1
      have hi' : i < df'.rows.length := by simpa using h2
      by_cases hrid : "record_id" ∈ df.cols
      · have := hagree i hi "record_id" hrid (by simp [hvolnil])
        rw [getD_eq_getElem_rows hi, getD_eq_getElem_rows hi'] at this
        exact this
      · rw [cellAt_not_mem hrid, cellAt_not_mem hrid]
    · rw [if_neg hvol, if_neg hvol, hcols]
      have hfmem : cw ∈ df.cols.filter (fun c => !sc.colsVolatile.contains c) :=
        List.mem_filter.mpr ⟨hcw, by simpa using hcwv⟩
      have hfne : ¬(df.cols.filter (fun c => !sc.colsVolatile.contains c)).isEmpty = true := by
        intro h
        rw [List.isEmpty_iff] at h
        rw [h] at hfmem
        simp at hfmem
      rw [if_neg hfne, if_neg hfne]
      rw [getCol_setCol_self hwf (by simp), getCol_setCol_self hwf' (by simp)]
      refine List.ext_getElem (by simp [hlen]) (fun i h1 h2 => ?_)
      rw [List.getElem_map, List.getElem_map]
      have hi : i < df.rows.length := by simpa using h1
      have hi' : i < df'.rows.length := by simpa using h2
      have heq : recordHashInput df.cols (df.cols.filter (fun c => !sc.colsVolatile.contains c))
          df.rows[i] =
          recordHashInput df.cols (df.cols.filter (fun c => !sc.colsVolatile.contains c))
          df'.rows[i] := by
        unfold recordHashInput
        congr 1
        refine List.map_congr_left (fun c hcf => ?_)
        have hcc := List.mem_filter.mp hcf
        have hv : c ∉ sc.colsVolatile := by simpa using hcc.2
        have := hagree i hi c hcc.1 hv
        rw [getD_eq_getElem_rows hi, getD_eq_getElem_rows hi'] at this
        rw [this]
      rw [heq]

set_option maxRecDepth 100000 in
/-- C1 amended witness: changing only the volatile `created_at` cell leaves
the generated `record_id` column unchanged under `VehiclePositions`. -/
theorem c1_witness :
    (generate_record_id (DF.mk ["trip_id", "created_at"] [[Val.str "x", Val.ts 0]])
        vehiclePositions).getCol "record_id" =
      (generate_record_id (DF.mk ["trip_id", "created_at"] [[Val.str "x", Val.ts 999]])
        vehiclePositions).getCol "record_id" :=
  c1_amended_volatile_independent vehiclePositions
    (DF.mk ["trip_id", "created_at"] [[Val.str "x", Val.ts 0]])
    (DF.mk ["trip_id", "created_at"] [[Val.str "x", Val.ts 999]])
    (by intro r hr; simp at hr; simp [hr]) (by intro r hr; simp at hr; simp [hr]) rfl rfl
    ⟨"trip_id", by decide, by decide⟩
    (by decide)

/-! ## Claim C6 -/

theorem find_eq_some_of_nodup_keys {α β : Type} [DecidableEq β] (l : List α) (key : α → β)
    (p : α → Bool) (x : α) (hx : x ∈ l) (hnd : (l.map key).Nodup)
    (hpx : p x = true) (hp : ∀ y ∈ l, p y = true → key y = key x) :
    l.find? p = Option.some x := by
  induction l with
  | nil => simp at hx
  | cons a as ih =>
    by_cases hpa : p a = true
    · rw [List.find?_cons_of_pos _ hpa]
      rcases List.mem_cons.mp hx with rfl | hxs
      · rfl
      · exfalso
        have hka : key a = key x := hp a (List.mem_cons_self a as) hpa
        have hnd' : (key a :: as.map key).Nodup := by
          rw [← List.map_cons]
          exact hnd
        exact (List.nodup_cons.mp hnd').1 (hka ▸ List.mem_map.mpr ⟨x, hxs, rfl⟩)
    · rw [List.find?_cons_of_neg _ hpa]
      rcases List.mem_cons.mp hx with rfl | hxs
      · exact absurd hpx hpa
      · have hnd' : (key a :: as.map key).Nodup := by
          rw [← List.map_cons]
          exact hnd
        exact ih hxs (List.nodup_cons.mp hnd').2
          (fun y hy hpy => hp y (List.mem_cons_of_mem a hy) hpy)

/-- C6: in the staged-merge strategy, a destination row matched on
`record_id` inside the window has every destination column except
`created_at` overwritten with the source value while `created_at` keeps the
destination value; the updated row is in the merge result; and a source row
(inside the window) matching no destination row is inserted whole. -/
theorem c6_merge_matched_updates_except_created_at (tc : List String)
    (dest source : List (List Val)) (lb ub : Int) (t s : List Val)
    (hnd : ((source.filter (fun s' => inWindow lb ub (cellAt tc s' "timestamp"))).map
      (fun s' => cellAt tc s' "record_id")).Nodup)
    (ht : t ∈ dest) (hs : s ∈ source)
    (hsw : inWindow lb ub (cellAt tc s "timestamp") = true)
    (htw : inWindow lb ub (cellAt tc t "timestamp") = true)
    (hrid : cellAt tc s "record_id" = cellAt tc t "record_id") :
    (∀ c ∈ tc, cellAt tc (merge_update_row tc t s) c =
      if c = "created_at" then cellAt tc t c else cellAt tc s c) ∧
    merge_update_row tc t s ∈ merge_exec tc dest source lb ub ∧
    (∀ s' ∈ source, inWindow lb ub (cellAt tc s' "timestamp") = true →
      (∀ t' ∈ dest, ¬(cellAt tc t' "record_id" = cellAt tc s' "record_id" ∧
        inWindow lb ub (cellAt tc t' "timestamp") = true)) →
      s' ∈ merge_exec tc dest source lb ub) := by
  refine ⟨?_, ?_, ?_⟩
  · intro c hc
    unfold merge_update_row
    rw [cellAt_map hc]
    by_cases hca : c = "created_at"
    · subst hca
      have hcontains : ((updatable_columns tc).contains "created_at") = false := by
        simp [updatable_columns, List.contains, List.mem_filter]
      rw [hcontains]
      simp
    · have hcontains : ((updatable_columns tc).contains c) = true := by
        simp [updatable_columns, List.contains, List.mem_filter, hc, hca]
      rw [hcontains]
      simp only [if_true, hca, if_false]
  · unfold merge_exec
    simp only []
    refine List.mem_append.mpr (Or.inl ?_)
    refine List.mem_map.mpr ⟨t, ht, ?_⟩
    have hfind : ((source.filter (fun s' => inWindow lb ub (cellAt tc s' "timestamp"))).find?
        (fun s' => (cellAt tc s' "record_id" == cellAt tc t "record_id") &&
          inWindow lb ub (cellAt tc t "timestamp"))) = Option.some s := by
      apply find_eq_some_of_nodup_keys _ (fun s' => cellAt tc s' "record_id") _ s
        (List.mem_filter.mpr ⟨hs, by simpa using hsw⟩) hnd
      · simp [hrid, htw]
      · intro y hy hpy
        simp only [htw, Bool.and_true, beq_iff_eq] at hpy
        rw [hpy, hrid]
    rw [hfind]
  · intro s' hs' hsw' hnomatch
    unfold merge_exec
    simp only []
    refine List.mem_append.mpr (Or.inr ?_)
    refine List.mem_filter.mpr ⟨List.mem_filter.mpr ⟨hs', by simpa using hsw'⟩, ?_⟩
    have hany : (dest.any (fun t' => (cellAt tc t' "record_id" == cellAt tc s' "record_id") &&
        inWindow lb ub (cellAt tc t' "timestamp"))) = false := by
      rw [List.any_eq_false]
      intro t' ht'
      by_cases h1 : cellAt tc t' "record_id" = cellAt tc s' "record_id"
      · have h2 : inWindow lb ub (cellAt tc t' "timestamp") = false := by
          by_contra hcon
          exact hnomatch t' ht' ⟨h1, by simpa using hcon⟩
        simp [h2]
      · simp [h1]
    simp [hany]

/-- C6 witness: a matched row's updated version and an unmatched row both
appear in the merge result for concrete one/two-row tables. -/
theorem c6_witness :
    merge_update_row ["record_id", "timestamp", "created_at", "value"]
        [Val.str "r1", Val.ts 1700000000, Val.ts 1600000000, Val.str "old"]
        [Val.str "r1", Val.ts 1700000500, Val.ts 1650000000, Val.str "new"] ∈
      merge_exec ["record_id", "timestamp", "created_at", "value"]
        [[Val.str "r1", Val.ts 1700000000, Val.ts 1600000000, Val.str "old"]]
        [[Val.str "r1", Val.ts 1700000500, Val.ts 1650000000, Val.str "new"],
         [Val.str "r2", Val.ts 1700000600, Val.ts 1650000000, Val.str "ins"]]
        1699920000 1700092800 ∧
    [Val.str "r2", Val.ts 1700000600, Val.ts 1650000000, Val.str "ins"] ∈
      merge_exec ["record_id", "timestamp", "created_at", "value"]
        [[Val.str "r1", Val.ts 1700000000, Val.ts 1600000000, Val.str "old"]]
        [[Val.str "r1", Val.ts 1700000500, Val.ts 1650000000, Val.str "new"],
         [Val.str "r2", Val.ts 1700000600, Val.ts 1650000000, Val.str "ins"]]
        1699920000 1700092800 := by
  have h := c6_merge_matched_updates_except_created_at
    ["record_id", "timestamp", "created_at", "value"]
    [[Val.str "r1", Val.ts 1700000000, Val.ts 1600000000, Val.str "old"]]
    [[Val.str "r1", Val.ts 1700000500, Val.ts 1650000000, Val.str "new"],
     [Val.str "r2", Val.ts 1700000600, Val.ts 1650000000, Val.str "ins"]]
    1699920000 1700092800
    [Val.str "r1", Val.ts 1700000000, Val.ts 1600000000, Val.str "old"]
    [Val.str "r1", Val.ts 1700000500, Val.ts 1650000000, Val.str "new"]
    (by decide) (by decide) (by decide) (by decide) (by decide) (by decide)
  exact ⟨h.2.1,
    h.2.2 [Val.str "r2", Val.ts 1700000600, Val.ts 1650000000, Val.str "ins"]
      (by decide) (by decide) (by decide)⟩

/-! ## Claim C4

`upload` returns before any snapshot handling when the incoming frame is
empty, so an empty-input run completes without row-level errors yet leaves
the external key set untouched — the claim's "fully replaced on every
error-free run" fails there.  For every run with at least one input row (and
a non-empty key column list) the claim holds: both the all-duplicates path
and the successful-insert path overwrite the snapshot from the pre-filter
input. -/

/-- C4 counterexample: an empty snapshot-enabled run reports no errors but
does not replace the key set (`snapshotAfter = none`), although the claim
requires a replace with the (empty) deduplicated projection plus timestamp. -/
theorem c4_counterexample :
    snapshot_upload (SDF.mk ["entity_id", "record_id"] []) true
        [[Option.some (Prim.pstr "V1"), Option.some (Prim.pstr "R100")]]
        ["entity_id", "record_id"] 0 =
      Except.ok (SnapUploadResult.mk 0 0 0 Option.none) ∧
    (Option.none : Option (List (List (Option Prim)))) ≠
      Option.some (snapshot_key_frame (SDF.mk ["entity_id", "record_id"] [])
        ["entity_id", "record_id"]) := by
  exact ⟨rfl, by decide⟩

/-- C4 (amended): for every snapshot-enabled run with a non-empty input frame
and non-empty key column list that completes without row-level insert errors
— including runs in which every incoming row is filtered out as a duplicate —
the snapshot is replaced with the deduplicated normalized key projection of
the pre-filter input (never the post-filter rows). -/
theorem c4_amended_overwrite_prefilter (df : SDF) (existingKeys : List (List (Option Prim)))
    (keyCols : List String) (hne : df.rows ≠ []) (hk : keyCols ≠ []) :
    ∃ r : SnapUploadResult,
      snapshot_upload df true existingKeys keyCols 0 = Except.ok r ∧
      r.snapshotAfter = Option.some (snapshot_key_frame df keyCols) ∧
      r.errorCount = 0 ∧
      r.skippedDuplicates = (drop_seen_rows df existingKeys keyCols).2 := by
  unfold snapshot_upload
  rw [if_neg (by simpa using hne)]
  simp only [Bool.not_true, Bool.false_eq_true, if_false]
  by_cases hemp : (drop_seen_rows df existingKeys keyCols).1.rows.isEmpty = true
  · refine ⟨⟨0, 0, (drop_seen_rows df existingKeys keyCols).2,
      overwrite_effect df keyCols⟩, ?_, ?_, rfl, rfl⟩
    · rw [if_pos hemp]
    · simp [overwrite_effect, hk]
  · rw [if_neg hemp, if_pos trivial]
    refine ⟨_, rfl, ?_, rfl, rfl⟩
    simp [overwrite_effect, hk]

/-- C4 amended witness: a run whose single row is already in the snapshot
(filtered output empty) still overwrites the key set from the pre-filter
input. -/
theorem c4_witness :
    ∃ r : SnapUploadResult,
      snapshot_upload
          (SDF.mk ["entity_id"] [[SVal.box (Prim.pstr "E1")]]) true
          [[Option.some (Prim.pstr "E1")]] ["entity_id"] 0 =
        Except.ok r ∧
      r.snapshotAfter = Option.some (snapshot_key_frame
        (SDF.mk ["entity_id"] [[SVal.box (Prim.pstr "E1")]]) ["entity_id"]) ∧
      r.errorCount = 0 ∧
      r.skippedDuplicates = (drop_seen_rows (SDF.mk ["entity_id"] [[SVal.box (Prim.pstr "E1")]])
        [[Option.some (Prim.pstr "E1")]] ["entity_id"]).2 :=
  c4_amended_overwrite_prefilter (SDF.mk ["entity_id"] [[SVal.box (Prim.pstr "E1")]])
    [[Option.some (Prim.pstr "E1")]] ["entity_id"] (by decide) (by decide)

/-- C5 witness: a batch spanning two consecutive UTC days gets the two-day
half-open window, and the upper bound itself is excluded. -/
theorem c5_witness :
    compute_merge_window (Option.some [Val.ts 1700000000, Val.ts 1700090000, Val.null NullKind.vNan]) 0 =
      (1699920000, 1700092800) ∧
    inWindow 1699920000 1700092800 (Val.ts (1700092800 : Rat)) = false := by
  have h := c5_partition_window [Val.ts 1700000000, Val.ts 1700090000, Val.null NullKind.vNan] 0
    1700000000 1700090000 (by decide) (by decide)
  refine ⟨?_, ?_⟩
  · have h1 := h.1
    rwa [show dayStartS 1700000000 = 1699920000 from by decide,
      show dayStartS 1700090000 + 86400 = 1700092800 from by decide] at h1
  · have h5 := h.2.2.2.2.1
    rwa [show dayStartS 1700000000 = 1699920000 from by decide,
      show dayStartS 1700090000 + 86400 = 1700092800 from by decide] at h5

end GtfsPipeline
